import Mathlib

/-!
Verification development for the social-network analyser
(`main.py`, `content_analyzer.py`): a shallow embedding of the
engine's data model and analyses, with proofs of the specified
properties.  Python floats are modelled as exact rationals, Python
dicts as insertion-ordered association lists, and `datetime.now()` as
an explicit clock parameter threaded through the mutating operations.
-/

attribute [local semireducible] Rat.add Rat.mul Rat.sub Rat.inv

namespace SNA

/-! ## Content metadata and the risk classifier (`content_analyzer.py`) -/

/-- Metadata dict of a content item; `none` models an absent key
(`dict.get` defaults are applied at each use site, as in the source). -/
structure ContentMeta where
  title : Option String := none
  description : Option String := none
  category : Option String := none
  target_age_max : Option Int := none
  target_age_min : Option Int := none
  duration_seconds : Option Int := none
  deriving DecidableEq, Repr

/-- Substring containment on character lists (Python `in` on strings). -/
def listContainsSub (s pat : List Char) : Bool :=
  s.tails.any (fun t => pat.isPrefixOf t)

/-- `pat in s` for strings (Python substring test). -/
def containsSub (s pat : String) : Bool :=
  listContainsSub s.data pat.data

/-- Python `str.lower()` (character-wise lowercasing). -/
def strLower (s : String) : String := ⟨s.data.map Char.toLower⟩

/-- `self.risk_keywords['high_risk']`. -/
def highRiskKeywords : List String :=
  ["criança", "menino", "menina", "bebê", "infantil", "kids", "children"]

/-- `self.risk_keywords['medium_risk']`. -/
def mediumRiskKeywords : List String :=
  ["jovem", "adolescente", "teen", "escola", "school"]

/-- Python `min(a, b)` on floats, as exact rationals. -/
def ratMin (a b : ℚ) : ℚ := if a ≤ b then a else b

/-- Result of `classify_content_risk`. -/
structure RiskAssessment where
  risk_score : ℚ
  risk_level : String
  risk_factors : List String
  deriving DecidableEq, Repr

/-- `_get_risk_level`: thresholds 0.7 / 0.4 / 0.2. -/
def getRiskLevel (score : ℚ) : String :=
  if score ≥ 7/10 then "ALTO"
  else if score ≥ 4/10 then "MÉDIO"
  else if score ≥ 2/10 then "BAIXO"
  else "MÍNIMO"

/-- The age-rule contribution of `classify_content_risk`
(`target_age_max ≤ 8 → +0.8`, `≤ 12 → +0.6`, `≤ 16 → +0.3`). -/
def ageRule (tam : Int) : ℚ × List String :=
  if tam ≤ 8 then (8/10, ["Conteúdo para crianças muito pequenas"])
  else if tam ≤ 12 then (6/10, ["Conteúdo infantil"])
  else if tam ≤ 16 then (3/10, ["Conteúdo adolescente"])
  else (0, [])

/-- `classify_content_risk(content_metadata)`: additive scoring capped
at 1.0.  The keyword loops are rendered as a filter over the keyword
list (one hit per distinct keyword, factors in keyword-list order,
exactly as the `for` loops produce them). -/
def classify_content_risk (m : ContentMeta) : RiskAssessment :=
  let age := ageRule (m.target_age_max.getD 100)
  let text := strLower ((m.title.getD "") ++ " " ++ (m.description.getD ""))
  let hi := highRiskKeywords.filter (fun k => containsSub text k)
  let med := mediumRiskKeywords.filter (fun k => containsSub text k)
  let category := strLower (m.category.getD "")
  let catHit : Bool := category ∈ ["kids", "children", "family", "educational"]
  let duration := m.duration_seconds.getD 0
  let durHit : Bool := 0 < duration ∧ duration < 60
  let score : ℚ := age.1 + (hi.length : ℚ) * (3/10) + (med.length : ℚ) * (1/10)
      + (if catHit then 2/10 else 0) + (if durHit then 1/10 else 0)
  let factors := age.2
      ++ hi.map (fun k => "Palavra-chave de alto risco: " ++ k)
      ++ med.map (fun k => "Palavra-chave de médio risco: " ++ k)
      ++ (if catHit then ["Categoria suspeita: " ++ category] else [])
      ++ (if durHit then ["Duração muito curta"] else [])
  { risk_score := ratMin 1 score
    risk_level := getRiskLevel (ratMin 1 score)
    risk_factors := factors }

lemma ratMin_le_left (a b : ℚ) : ratMin a b ≤ a := by
  unfold ratMin; split_ifs with h; exacts [le_refl a, le_of_not_le h]

lemma le_ratMin (a b c : ℚ) (ha : c ≤ a) (hb : c ≤ b) : c ≤ ratMin a b := by
  unfold ratMin; split_ifs with h; exacts [ha, hb]

lemma ageRule_nonneg (tam : Int) : 0 ≤ (ageRule tam).1 := by
  unfold ageRule
  split_ifs <;> norm_num

lemma classify_raw_nonneg (m : ContentMeta) :
    0 ≤ (classify_content_risk m).risk_score := by
  unfold classify_content_risk
  refine le_ratMin _ _ _ (by norm_num) ?_
  have h1 := ageRule_nonneg (m.target_age_max.getD 100)
  have h2 : (0:ℚ) ≤ ((highRiskKeywords.filter
      (fun k => containsSub (strLower ((m.title.getD "") ++ " " ++
        (m.description.getD ""))) k)).length : ℚ) * (3/10) := by
    positivity
  have h3 : (0:ℚ) ≤ ((mediumRiskKeywords.filter
      (fun k => containsSub (strLower ((m.title.getD "") ++ " " ++
        (m.description.getD ""))) k)).length : ℚ) * (1/10) := by
    positivity
  refine add_nonneg (add_nonneg (add_nonneg (add_nonneg h1 h2) h3) ?_) ?_
  · split_ifs <;> norm_num
  · split_ifs <;> norm_num

lemma classify_raw_le_one (m : ContentMeta) :
    (classify_content_risk m).risk_score ≤ 1 := by
  unfold classify_content_risk
  exact ratMin_le_left _ _

lemma classify_level_eq (m : ContentMeta) :
    (classify_content_risk m).risk_level
      = getRiskLevel (classify_content_risk m).risk_score := rfl

lemma getRiskLevel_alto (q : ℚ) : getRiskLevel q = "ALTO" ↔ 7/10 ≤ q := by
  unfold getRiskLevel
  split_ifs with h1 h2 h3
  · exact iff_of_true rfl h1
  · exact iff_of_false (by decide) h1
  · exact iff_of_false (by decide) h1
  · exact iff_of_false (by decide) h1

lemma getRiskLevel_medio (q : ℚ) :
    getRiskLevel q = "MÉDIO" ↔ 4/10 ≤ q ∧ q < 7/10 := by
  unfold getRiskLevel
  split_ifs with h1 h2 h3
  · exact iff_of_false (by decide) (fun h => absurd h.2 (not_lt.mpr h1))
  · exact iff_of_true rfl ⟨h2, not_le.mp h1⟩
  · exact iff_of_false (by decide) (fun h => h2 h.1)
  · exact iff_of_false (by decide) (fun h => h2 h.1)

lemma getRiskLevel_baixo (q : ℚ) :
    getRiskLevel q = "BAIXO" ↔ 2/10 ≤ q ∧ q < 4/10 := by
  unfold getRiskLevel
  split_ifs with h1 h2 h3
  · exact iff_of_false (by decide)
      (fun h => absurd h.2 (not_lt.mpr (by linarith)))
  · exact iff_of_false (by decide) (fun h => absurd h.2 (not_lt.mpr h2))
  · exact iff_of_true rfl ⟨h3, not_le.mp h2⟩
  · exact iff_of_false (by decide) (fun h => h3 h.1)

lemma getRiskLevel_minimo (q : ℚ) :
    getRiskLevel q = "MÍNIMO" ↔ q < 2/10 := by
  unfold getRiskLevel
  split_ifs with h1 h2 h3
  · exact iff_of_false (by decide) (not_lt.mpr (by linarith))
  · exact iff_of_false (by decide) (not_lt.mpr (by linarith))
  · exact iff_of_false (by decide) (not_lt.mpr h3)
  · exact iff_of_true rfl (not_le.mp h3)

/-- C3: every classification has `risk_score ∈ [0,1]`, the level is
exactly the threshold function of the (capped) score, the thresholds
carve `[0,1]` into ALTO `[0.7,∞)`, MÉDIO `[0.4,0.7)`, BAIXO
`[0.2,0.4)`, MÍNIMO `(-∞,0.2)`, and the boundary scores 0, 0.2, 0.4,
0.7, 1 land on exactly these levels. -/
theorem classify_score_range_and_level_thresholds (m : ContentMeta) (q : ℚ) :
    (0 ≤ (classify_content_risk m).risk_score ∧
     (classify_content_risk m).risk_score ≤ 1) ∧
    (classify_content_risk m).risk_level
      = getRiskLevel (classify_content_risk m).risk_score ∧
    (getRiskLevel q = "ALTO" ↔ 7/10 ≤ q) ∧
    (getRiskLevel q = "MÉDIO" ↔ 4/10 ≤ q ∧ q < 7/10) ∧
    (getRiskLevel q = "BAIXO" ↔ 2/10 ≤ q ∧ q < 4/10) ∧
    (getRiskLevel q = "MÍNIMO" ↔ q < 2/10) ∧
    getRiskLevel 0 = "MÍNIMO" ∧ getRiskLevel (2/10) = "BAIXO" ∧
    getRiskLevel (4/10) = "MÉDIO" ∧ getRiskLevel (7/10) = "ALTO" ∧
    getRiskLevel 1 = "ALTO" :=
  ⟨⟨classify_raw_nonneg m, classify_raw_le_one m⟩, classify_level_eq m,
   getRiskLevel_alto q, getRiskLevel_medio q, getRiskLevel_baixo q,
   getRiskLevel_minimo q, by decide, by decide, by decide, by decide, by decide⟩

/-- The metadata of the spec's concrete classification example. -/
def exampleMeta : ContentMeta :=
  { title := some "bebê aprende", target_age_max := some 5,
    category := some "kids", duration_seconds := some 30 }

/-- C8: the concrete example classifies as ALTO with score exactly 1
and the four factor strings in rule-evaluation order. -/
theorem classify_bebe_aprende_example :
    classify_content_risk exampleMeta =
      { risk_score := 1, risk_level := "ALTO",
        risk_factors := ["Conteúdo para crianças muito pequenas",
          "Palavra-chave de alto risco: bebê",
          "Categoria suspeita: kids",
          "Duração muito curta"] } := by decide

/-! ## The engine store (`main.py`)

User profiles are Python dicts; we embed them as insertion-ordered
association lists over a tagged value type, with Python's assignment
(`d[k] = v`), lookup and `d.update(e)` semantics. -/

/-- One entry of a user's `content_consumed` log. -/
structure Interaction where
  content_id : String
  content_type : String
  interaction_type : String
  timestamp : Nat
  metadata : ContentMeta
  deriving DecidableEq, Repr

/-- A Python value stored in a profile dict. -/
inductive PVal where
  | vint (n : Int)
  | vrat (q : ℚ)
  | vstr (s : String)
  | vnat (t : Nat)
  | vinteractions (l : List Interaction)
  | vstrlist (l : List String)
  deriving DecidableEq, Repr

/-- A Python dict with string keys. -/
abbrev Dict := List (String × PVal)

/-- Python `d[k] = v`: overwrite in place if the key exists
(keeping its position), else append. -/
def dictSet {α} (d : List (String × α)) (k : String) (v : α) :
    List (String × α) :=
  if d.any (fun kv => kv.1 == k)
  then d.map (fun kv => if kv.1 = k then (k, v) else kv)
  else d ++ [(k, v)]

/-- Python `d.get(k)` / `k in d`. -/
def dictGet {α} (d : List (String × α)) (k : String) : Option α :=
  (d.find? (fun kv => kv.1 == k)).map (fun kv => kv.2)

/-- Python `d.update(e)`: assign every entry of `e` in order. -/
def dictUpdate {α} (d e : List (String × α)) : List (String × α) :=
  e.foldl (fun acc kv => dictSet acc kv.1 kv.2) d

/-- The value the *last* entry of `d` holds for key `k` (the one that
wins under `update`). -/
def dictGetLast {α} : List (String × α) → String → Option α
  | [], _ => none
  | kv :: t, k =>
    match dictGetLast t k with
    | some v => some v
    | none => if kv.1 = k then some kv.2 else none

/-- Profile field `age` (engine-written profiles hold an int here). -/
def pAge (p : Dict) : Int :=
  match dictGet p "age" with | some (.vint n) => n | _ => 0

/-- Profile field `user_id`. -/
def pUserId (p : Dict) : String :=
  match dictGet p "user_id" with | some (.vstr s) => s | _ => ""

/-- Profile field `content_consumed`. -/
def pConsumed (p : Dict) : List Interaction :=
  match dictGet p "content_consumed" with
  | some (.vinteractions l) => l | _ => []

/-- Profile field `connections`. -/
def pConnections (p : Dict) : List String :=
  match dictGet p "connections" with | some (.vstrlist l) => l | _ => []

/-- Profile field `suspicious_score`. -/
def pScore (p : Dict) : ℚ :=
  match dictGet p "suspicious_score" with | some (.vrat q) => q | _ => 0

/-- Attribute dict of an `nx` edge. -/
structure EdgeData where
  connection_type : String
  weight : ℚ
  timestamp : Nat
  deriving DecidableEq, Repr

/-- An `nx.Graph`: node list in insertion order, undirected edge list. -/
structure Graph where
  nodes : List String
  edges : List (String × String × EdgeData)
  deriving DecidableEq, Repr

/-- `graph.add_node(v)` (no-op when present). -/
def Graph.addNode (g : Graph) (v : String) : Graph :=
  if g.nodes.contains v then g else { g with nodes := g.nodes ++ [v] }

/-- Whether an edge entry joins `u` and `v` (undirected). -/
def edgeMatches (u v : String) (e : String × String × EdgeData) : Bool :=
  (e.1 == u && e.2.1 == v) || (e.1 == v && e.2.1 == u)

/-- `graph.has_edge(u, v)`. -/
def Graph.hasEdge (g : Graph) (u v : String) : Bool :=
  g.edges.any (edgeMatches u v)

/-- `graph.add_edge(u, v, **data)`: inserts missing endpoints, and
overwrites the attribute dict when the edge already exists. -/
def Graph.addEdge (g : Graph) (u v : String) (d : EdgeData) : Graph :=
  let g1 := (g.addNode u).addNode v
  if g1.hasEdge u v then
    let es := g1.edges.map
      (fun e => if edgeMatches u v e then (e.1, e.2.1, d) else e)
    { g1 with edges := es }
  else { g1 with edges := g1.edges ++ [(u, v, d)] }

/-- `graph.neighbors(v)`. -/
def Graph.nbrs (g : Graph) (v : String) : List String :=
  g.nodes.filter (fun u => g.hasEdge v u)

/-- One entry of a content item's `interactions` list. -/
structure CInteraction where
  user_id : String
  interaction_type : String
  timestamp : Nat
  deriving DecidableEq, Repr

/-- One value of `self.content_data`. -/
structure ContentRec where
  content_id : String
  content_type : String
  interactions : List CInteraction
  flags : List String
  metadata : ContentMeta
  deriving DecidableEq, Repr

/-- The `SocialNetworkAnalyzer` store. -/
structure Analyzer where
  graph : Graph
  user_profiles : List (String × Dict)
  content_data : List (String × ContentRec)
  deriving DecidableEq, Repr

/-- The freshly built profile dict of `add_user`, at clock `now`. -/
def defaultProfile (user_id : String) (age : Int) (now : Nat) : Dict :=
  [("user_id", .vstr user_id), ("age", .vint age),
   ("registration_date", .vnat now), ("suspicious_score", .vrat 0),
   ("content_consumed", .vinteractions []), ("connections", .vstrlist [])]

/-- `add_user(user_id, age, profile_data)` at clock `now`
(`profile_data = []` models passing `None`). -/
def add_user (s : Analyzer) (user_id : String) (age : Int)
    (profile_data : Dict) (now : Nat) : Analyzer :=
  { s with
    graph := s.graph.addNode user_id
    user_profiles := dictSet s.user_profiles user_id
      (dictUpdate (defaultProfile user_id age now) profile_data) }

/-- Append `v` to the `connections` list of `u`'s profile. -/
def appendConn (ps : List (String × Dict)) (u v : String) :
    List (String × Dict) :=
  match dictGet ps u with
  | some p => dictSet ps u
      (dictSet p "connections" (.vstrlist (pConnections p ++ [v])))
  | none => ps

/-- `add_connection(user1, user2, connection_type, weight)` at clock
`now`: guarded on both endpoints being registered. -/
def add_connection (s : Analyzer) (user1 user2 : String)
    (connection_type : String) (weight : ℚ) (now : Nat) : Analyzer :=
  if (dictGet s.user_profiles user1).isSome ∧
     (dictGet s.user_profiles user2).isSome then
    let g := s.graph.addEdge user1 user2 ⟨connection_type, weight, now⟩
    let ps1 := appendConn s.user_profiles user1 user2
    let ps2 := appendConn ps1 user2 user1
    { s with graph := g, user_profiles := ps2 }
  else s

/-- `add_content_interaction(user_id, content_id, content_type,
interaction_type, content_metadata)` at clock `now`; returns the
success flag together with the new store. -/
def add_content_interaction (s : Analyzer) (user_id content_id : String)
    (content_type interaction_type : String) (content_metadata : ContentMeta)
    (now : Nat) : Bool × Analyzer :=
  match dictGet s.user_profiles user_id with
  | none => (false, s)
  | some p =>
    let interaction : Interaction :=
      ⟨content_id, content_type, interaction_type, now, content_metadata⟩
    let ps := dictSet s.user_profiles user_id
      (dictSet p "content_consumed"
        (.vinteractions (pConsumed p ++ [interaction])))
    let c := match dictGet s.content_data content_id with
      | some c => c
      | none => ⟨content_id, content_type, [], [], content_metadata⟩
    let c2 := { c with interactions :=
      c.interactions ++ [⟨user_id, interaction_type, now⟩] }
    (true, { s with user_profiles := ps,
                    content_data := dictSet s.content_data content_id c2 })

/-- The interaction list the store holds for `content_id` (empty when
the content is unknown). -/
def contentInteractions (s : Analyzer) (content_id : String) :
    List CInteraction :=
  match dictGet s.content_data content_id with
  | some c => c.interactions
  | none => []

/-! ## Dict lemmas -/

lemma find?_append {α} (l₁ l₂ : List α) (p : α → Bool) :
    (l₁ ++ l₂).find? p = ((l₁.find? p).orElse (fun _ => l₂.find? p)) := by
  induction l₁ with
  | nil => simp
  | cons a t ih => by_cases h : p a <;> simp [List.find?_cons, h, ih]

lemma find?_map_set {α} (d : List (String × α)) (k : String) (v : α)
    (h : d.any (fun kv => kv.1 == k) = true) :
    (d.map (fun kv => if kv.1 = k then (k, v) else kv)).find?
      (fun kv => kv.1 == k) = some (k, v) := by
  induction d with
  | nil => simp at h
  | cons a t ih =>
    by_cases ha : a.1 = k
    · simp [List.find?_cons, ha]
    · have ht : t.any (fun kv => kv.1 == k) = true := by
        simpa [List.any_cons, ha] using h
      simp [List.find?_cons, ha, ih ht]

lemma find?_map_set_other {α} (d : List (String × α)) (k k' : String) (v : α)
    (h : k' ≠ k) :
    ((d.map (fun kv => if kv.1 = k then (k, v) else kv)).find?
      (fun kv => kv.1 == k')).map (fun kv => kv.2)
      = (d.find? (fun kv => kv.1 == k')).map (fun kv => kv.2) := by
  induction d with
  | nil => simp
  | cons a t ih =>
    rw [List.map_cons]
    by_cases ha : a.1 = k
    · rw [List.find?_cons_of_neg _ (by simp [ha]; exact fun hkk => h hkk.symm),
        List.find?_cons_of_neg _ (by simp [ha]; exact fun hkk => h hkk.symm)]
      exact ih
    · rw [if_neg ha]
      by_cases ha' : a.1 = k'
      · rw [List.find?_cons_of_pos _ (by simp [ha']),
          List.find?_cons_of_pos _ (by simp [ha'])]
      · rw [List.find?_cons_of_neg _ (by simp [ha']),
          List.find?_cons_of_neg _ (by simp [ha'])]
        exact ih

lemma dictGet_dictSet_same {α} (d : List (String × α)) (k : String) (v : α) :
    dictGet (dictSet d k v) k = some v := by
  unfold dictGet dictSet
  split_ifs with h
  · rw [find?_map_set d k v h]; rfl
  · have hnone : d.find? (fun kv => kv.1 == k) = none := by
      rw [List.find?_eq_none]
      intro x hx hpx
      exact h (List.any_eq_true.mpr ⟨x, hx, hpx⟩)
    rw [find?_append, hnone]
    simp [List.find?_cons]

lemma dictGet_dictSet_other {α} (d : List (String × α)) (k k' : String)
    (v : α) (h : k' ≠ k) :
    dictGet (dictSet d k v) k' = dictGet d k' := by
  unfold dictGet dictSet
  split_ifs with hany
  · exact find?_map_set_other d k k' v h
  · rw [find?_append]
    have hk : (k == k') = false := by
      simp [beq_eq_false_iff_ne]; exact fun hkk => h hkk.symm
    cases hfind : d.find? (fun kv => kv.1 == k') with
    | none => simp [List.find?_cons, hk]
    | some a => simp

lemma dictUpdate_cons {α} (d : List (String × α)) (a : String × α)
    (t : List (String × α)) :
    dictUpdate d (a :: t) = dictUpdate (dictSet d a.1 a.2) t := rfl

/-- The value `d.update(e)` leaves under key `k`: the last value of
`e` for `k` when `e` mentions it, else `d`'s value. -/
def overrideGet {α} (e d : List (String × α)) (k : String) : Option α :=
  match dictGetLast e k with
  | some v => some v
  | none => dictGet d k

lemma dictGet_dictUpdate {α} (e d : List (String × α)) (k : String) :
    dictGet (dictUpdate d e) k = overrideGet e d k := by
  induction e generalizing d with
  | nil => simp [dictUpdate, dictGetLast, overrideGet]
  | cons a t ih =>
    rw [dictUpdate_cons, ih]
    cases hlast : dictGetLast t k with
    | some v => simp [overrideGet, dictGetLast, hlast]
    | none =>
      by_cases ha : a.1 = k
      · subst ha
        simp [overrideGet, dictGetLast, hlast, dictGet_dictSet_same]
      · have hne : k ≠ a.1 := fun hk => ha hk.symm
        simp [overrideGet, dictGetLast, hlast, ha,
          dictGet_dictSet_other d a.1 k a.2 hne]

lemma dictSet_mem {α} (d : List (String × α)) (k : String) (v : α) :
    (dictSet d k v).any (fun kv => kv.1 == k) = true := by
  have h := dictGet_dictSet_same d k v
  unfold dictGet at h
  cases hf : (dictSet d k v).find? (fun kv => kv.1 == k) with
  | none => rw [hf] at h; simp at h
  | some a =>
    have hp := List.find?_some hf
    have hm : a ∈ dictSet d k v := List.mem_of_find?_eq_some hf
    exact List.any_eq_true.mpr ⟨a, hm, hp⟩

lemma dictSet_of_mem {α} (d : List (String × α)) (k : String) (w : α)
    (h : d.any (fun kv => kv.1 == k) = true) :
    dictSet d k w = d.map (fun kv => if kv.1 = k then (k, w) else kv) := by
  unfold dictSet
  rw [h]
  simp

lemma dictSet_dictSet_same {α} (d : List (String × α)) (k : String)
    (v w : α) : dictSet (dictSet d k v) k w = dictSet d k w := by
  rw [dictSet_of_mem (dictSet d k v) k w (dictSet_mem d k v)]
  unfold dictSet
  split_ifs with h
  · rw [List.map_map]
    congr 1
    funext kv
    by_cases hk : kv.1 = k <;> simp [Function.comp, hk]
  · rw [List.map_append]
    have hall : ∀ kv ∈ d, (if kv.1 = k then (k, w) else kv) = kv := by
      intro kv hkv
      have hne : ¬ kv.1 = k := by
        intro he
        exact h (List.any_eq_true.mpr ⟨kv, hkv, by simp [he]⟩)
      simp [hne]
    rw [(List.map_congr_left hall).trans (List.map_id d)]
    simp

/-! ## Ingestion guards (C6) and `add_user` semantics (C10) -/

/-- C6: `add_connection` is a no-op (store returned unchanged) when
either endpoint is unregistered; `add_content_interaction` fails —
returning `False` with the store unchanged — exactly when the acting
user is unregistered, and for a registered user it succeeds, appending
the interaction to the user's `content_consumed` log and an entry to
the content's `interactions` list. -/
theorem ingestion_unknown_user_guards (s : Analyzer) (u1 u2 : String)
    (cid ct it : String) (w : ℚ) (m : ContentMeta) (now : Nat) :
    ((dictGet s.user_profiles u1 = none ∨ dictGet s.user_profiles u2 = none) →
      add_connection s u1 u2 ct w now = s) ∧
    ((add_content_interaction s u1 cid ct it m now).1 = false ↔
      dictGet s.user_profiles u1 = none) ∧
    (dictGet s.user_profiles u1 = none →
      (add_content_interaction s u1 cid ct it m now).2 = s) ∧
    (∀ p, dictGet s.user_profiles u1 = some p →
      (add_content_interaction s u1 cid ct it m now).1 = true ∧
      dictGet (add_content_interaction s u1 cid ct it m now).2.user_profiles u1
        = some (dictSet p "content_consumed"
            (PVal.vinteractions (pConsumed p ++ [⟨cid, ct, it, now, m⟩]))) ∧
      contentInteractions (add_content_interaction s u1 cid ct it m now).2 cid
        = contentInteractions s cid ++ [⟨u1, it, now⟩]) := by
  refine ⟨?_, ?_, ?_, ?_⟩
  · intro h
    unfold add_connection
    rcases h with h | h <;> rw [h] <;> simp
  · unfold add_content_interaction
    cases hget : dictGet s.user_profiles u1 <;> simp
  · intro h
    unfold add_content_interaction
    rw [h]
  · intro p hp
    unfold add_content_interaction
    rw [hp]
    refine ⟨rfl, ?_, ?_⟩
    · exact dictGet_dictSet_same _ _ _
    · unfold contentInteractions
      rw [dictGet_dictSet_same]
      cases hc : dictGet s.content_data cid <;> simp [hc]

/-- Empty store, and a store holding one registered user `u` (age 30,
registered at time 0): concrete data for the witnesses. -/
def emptyStore : Analyzer := ⟨⟨[], []⟩, [], []⟩

/-- `emptyStore` after `add_user("u", 30)` at time 0. -/
def oneUserStore : Analyzer := add_user emptyStore "u" 30 [] 0

theorem ingestion_unknown_user_guards_witness :
    add_connection oneUserStore "u" "x" "friend" 1 1 = oneUserStore ∧
    (add_content_interaction oneUserStore "u" "c1" "kids_video" "view" {} 2).1
      = true :=
  ⟨(ingestion_unknown_user_guards oneUserStore "u" "x" "c1" "kids_video"
      "view" 1 {} 1).1 (Or.inr (by decide)),
   ((ingestion_unknown_user_guards oneUserStore "u" "x" "c1" "kids_video"
      "view" 1 {} 2).2.2.2 (defaultProfile "u" 30 0) (by decide)).1⟩

lemma dictGet_defaultProfile_age (uid : String) (age : Int) (now : Nat) :
    dictGet (defaultProfile uid age now) "age" = some (.vint age) := by
  simp +decide [defaultProfile, dictGet, List.find?_cons]

lemma dictGet_defaultProfile_consumed (uid : String) (age : Int) (now : Nat) :
    dictGet (defaultProfile uid age now) "content_consumed"
      = some (.vinteractions []) := by
  simp +decide [defaultProfile, dictGet, List.find?_cons]

lemma dictGet_defaultProfile_connections (uid : String) (age : Int) (now : Nat) :
    dictGet (defaultProfile uid age now) "connections"
      = some (.vstrlist []) := by
  simp +decide [defaultProfile, dictGet, List.find?_cons]

/-- C10: `add_user` stores a freshly built default profile (empty
interaction log and connection list, cached score 0, the given age)
with every key of `attrs` copied over it — so `attrs` overrides
engine-managed fields such as `age` or `suspicious_score`, and
re-registering discards the accumulated log and connection list —
while the graph's edges are untouched. -/
theorem add_user_overwrites_profile (s : Analyzer) (uid : String) (age : Int)
    (attrs : Dict) (now : Nat) :
    dictGet (add_user s uid age attrs now).user_profiles uid
      = some (dictUpdate (defaultProfile uid age now) attrs) ∧
    (∀ k, dictGet (dictUpdate (defaultProfile uid age now) attrs) k
        = overrideGet attrs (defaultProfile uid age now) k) ∧
    (dictGetLast attrs "age" = none →
      pAge (dictUpdate (defaultProfile uid age now) attrs) = age) ∧
    (∀ a, dictGetLast attrs "age" = some (.vint a) →
      pAge (dictUpdate (defaultProfile uid age now) attrs) = a) ∧
    (∀ q, dictGetLast attrs "suspicious_score" = some (.vrat q) →
      pScore (dictUpdate (defaultProfile uid age now) attrs) = q) ∧
    (dictGetLast attrs "content_consumed" = none →
      pConsumed (dictUpdate (defaultProfile uid age now) attrs) = []) ∧
    (dictGetLast attrs "connections" = none →
      pConnections (dictUpdate (defaultProfile uid age now) attrs) = []) ∧
    (add_user s uid age attrs now).graph.edges = s.graph.edges := by
  refine ⟨?_, ?_, ?_, ?_, ?_, ?_, ?_, ?_⟩
  · exact dictGet_dictSet_same _ _ _
  · intro k
    exact dictGet_dictUpdate attrs (defaultProfile uid age now) k
  · intro h
    unfold pAge
    rw [dictGet_dictUpdate]
    unfold overrideGet
    rw [h, dictGet_defaultProfile_age]
  · intro a h
    unfold pAge
    rw [dictGet_dictUpdate]
    unfold overrideGet
    rw [h]
  · intro q h
    unfold pScore
    rw [dictGet_dictUpdate]
    unfold overrideGet
    rw [h]
  · intro h
    unfold pConsumed
    rw [dictGet_dictUpdate]
    unfold overrideGet
    rw [h, dictGet_defaultProfile_consumed]
  · intro h
    unfold pConnections
    rw [dictGet_dictUpdate]
    unfold overrideGet
    rw [h, dictGet_defaultProfile_connections]
  · unfold add_user Graph.addNode
    split_ifs <;> rfl

theorem add_user_overwrites_profile_witness :
    pAge (dictUpdate (defaultProfile "u" 40 5) [("age", PVal.vint 99)]) = 99 ∧
    (add_user oneUserStore "u" 40 [("age", PVal.vint 99)] 5).graph.edges
      = oneUserStore.graph.edges :=
  ⟨(add_user_overwrites_profile oneUserStore "u" 40 [("age", PVal.vint 99)]
      5).2.2.2.1 99 (by decide),
   (add_user_overwrites_profile oneUserStore "u" 40 [("age", PVal.vint 99)]
      5).2.2.2.2.2.2.2⟩

/-! ## The suspicion scorer (`detect_suspicious_content_patterns`) -/

/-- The scorer's child-content test: child content type, or
`metadata.get('target_age_max', 100) < 13`. -/
def isChildContent (i : Interaction) : Bool :=
  i.content_type ∈ ["kids_video", "children_game", "educational_kids"]
    || i.metadata.target_age_max.getD 100 < 13

/-- `suspicion_threshold = max(0.1, 0.5 - (age - 25) * 0.02)` — the
replaceable age policy. -/
def suspicionThreshold (age : Int) : ℚ :=
  max (1/10) (1/2 - ((age : ℚ) - 25) * (2/100))

/-- `child_content_ratio = child_content_count / total_content_count`. -/
def childContentRatio (childCount total : Nat) : ℚ :=
  (childCount : ℚ) / (total : ℚ)

/-- `suspicion_score = min(1.0, child_content_ratio * 2)`. -/
def suspicionScore (ratio : ℚ) : ℚ := ratMin 1 (ratio * 2)

/-- One record of the returned `suspicious_users` list. -/
structure SusRec where
  user_id : String
  age : Int
  child_content_ratio : ℚ
  child_content_count : Nat
  total_content_count : Nat
  suspicion_score : ℚ
  connections_count : Nat
  deriving DecidableEq, Repr

/-- `child_content_count`: the interactions of the profile's log that
pass the child-content test. -/
def child_content_count (p : Dict) : Nat :=
  ((pConsumed p).filter isChildContent).length

/-- `total_content_count = len(profile['content_consumed'])`. -/
def total_content_count (p : Dict) : Nat := (pConsumed p).length

/-- `child_content_ratio` of a profile. -/
def child_content_ratio (p : Dict) : ℚ :=
  childContentRatio (child_content_count p) (total_content_count p)

/-- One iteration of the `detect_suspicious_content_patterns` loop:
the (possibly score-updated) profile together with the record appended
for this user, if any. -/
def detectStep (p : Dict) : Dict × Option SusRec :=
  if pAge p < 18 then (p, none)
  else if total_content_count p = 0 then (p, none)
  else if child_content_ratio p > suspicionThreshold (pAge p)
      ∧ child_content_count p > 5 then
    (dictSet p "suspicious_score"
      (.vrat (suspicionScore (child_content_ratio p))),
     some { user_id := pUserId p, age := pAge p,
            child_content_ratio := child_content_ratio p,
            child_content_count := child_content_count p,
            total_content_count := total_content_count p,
            suspicion_score := suspicionScore (child_content_ratio p),
            connections_count := (pConnections p).length })
  else (p, none)

/-- Stable insertion before the first not-strictly-larger score. -/
def insertDesc (x : SusRec) : List SusRec → List SusRec
  | [] => [x]
  | y :: ys => if y.suspicion_score > x.suspicion_score
      then y :: insertDesc x ys else x :: y :: ys

/-- `sorted(..., key=lambda x: x['suspicion_score'], reverse=True)`:
the stable descending sort. -/
def sortDesc : List SusRec → List SusRec
  | [] => []
  | x :: xs => insertDesc x (sortDesc xs)

/-- The `suspicious_users` list as accumulated by the loop, in
profile-iteration (discovery) order, before the final sort. -/
def detectRaw (s : Analyzer) : List SusRec :=
  s.user_profiles.filterMap (fun up => (detectStep up.2).2)

/-- `detect_suspicious_content_patterns()`: the sorted suspicious list
together with the store after the advisory write-backs. -/
def detect_suspicious_content_patterns (s : Analyzer) :
    List SusRec × Analyzer :=
  (sortDesc (detectRaw s),
   { s with user_profiles :=
      s.user_profiles.map (fun up => (up.1, (detectStep up.2).1)) })

/-! ### C9: monotonicity in the child-content count -/

/-- C9: with the total fixed (and positive), a larger child-content
count never decreases the ratio nor the resulting suspicion score. -/
theorem suspicion_monotone_in_child_count (c₁ c₂ t : Nat)
    (ht : 0 < t) (h : c₁ ≤ c₂) :
    childContentRatio c₁ t ≤ childContentRatio c₂ t ∧
    suspicionScore (childContentRatio c₁ t)
      ≤ suspicionScore (childContentRatio c₂ t) := by
  have htq : (0:ℚ) < (t : ℚ) := by exact_mod_cast ht
  have hr : childContentRatio c₁ t ≤ childContentRatio c₂ t := by
    unfold childContentRatio
    exact (div_le_div_iff_of_pos_right htq).mpr (by exact_mod_cast h)
  refine ⟨hr, ?_⟩
  unfold suspicionScore ratMin
  split_ifs <;> linarith

theorem suspicion_monotone_in_child_count_witness :
    0 < 4 ∧ 1 ≤ 2 ∧
    (childContentRatio 1 4 ≤ childContentRatio 2 4 ∧
     suspicionScore (childContentRatio 1 4)
       ≤ suspicionScore (childContentRatio 2 4)) :=
  ⟨by decide, by decide,
   suspicion_monotone_in_child_count 1 2 4 (by decide) (by decide)⟩

/-! ### C7: idempotence of the scorer -/

lemma pAge_set_score (p : Dict) (v : PVal) :
    pAge (dictSet p "suspicious_score" v) = pAge p := by
  unfold pAge
  rw [dictGet_dictSet_other _ _ _ _ (by decide)]

lemma pUserId_set_score (p : Dict) (v : PVal) :
    pUserId (dictSet p "suspicious_score" v) = pUserId p := by
  unfold pUserId
  rw [dictGet_dictSet_other _ _ _ _ (by decide)]

lemma pConsumed_set_score (p : Dict) (v : PVal) :
    pConsumed (dictSet p "suspicious_score" v) = pConsumed p := by
  unfold pConsumed
  rw [dictGet_dictSet_other _ _ _ _ (by decide)]

lemma pConnections_set_score (p : Dict) (v : PVal) :
    pConnections (dictSet p "suspicious_score" v) = pConnections p := by
  unfold pConnections
  rw [dictGet_dictSet_other _ _ _ _ (by decide)]

lemma child_count_set_score (p : Dict) (v : PVal) :
    child_content_count (dictSet p "suspicious_score" v)
      = child_content_count p := by
  unfold child_content_count
  rw [pConsumed_set_score]

lemma total_count_set_score (p : Dict) (v : PVal) :
    total_content_count (dictSet p "suspicious_score" v)
      = total_content_count p := by
  unfold total_content_count
  rw [pConsumed_set_score]

lemma ratio_set_score (p : Dict) (v : PVal) :
    child_content_ratio (dictSet p "suspicious_score" v)
      = child_content_ratio p := by
  unfold child_content_ratio
  rw [child_count_set_score, total_count_set_score]

/-- Re-running the per-user scorer on its own output profile repeats
the decision and the write verbatim. -/
lemma detectStep_stable (p : Dict) :
    detectStep (detectStep p).1 = detectStep p := by
  by_cases h1 : pAge p < 18
  · have hp : detectStep p = (p, none) := by
      unfold detectStep; rw [if_pos h1]
    rw [hp]; exact hp
  · by_cases h2 : total_content_count p = 0
    · have hp : detectStep p = (p, none) := by
        unfold detectStep; rw [if_neg h1, if_pos h2]
      rw [hp]; exact hp
    · by_cases h3 : child_content_ratio p > suspicionThreshold (pAge p)
          ∧ child_content_count p > 5
      · have hp : detectStep p =
            (dictSet p "suspicious_score"
              (.vrat (suspicionScore (child_content_ratio p))),
             some { user_id := pUserId p, age := pAge p,
                    child_content_ratio := child_content_ratio p,
                    child_content_count := child_content_count p,
                    total_content_count := total_content_count p,
                    suspicion_score := suspicionScore (child_content_ratio p),
                    connections_count := (pConnections p).length }) := by
          unfold detectStep
          rw [if_neg h1, if_neg h2, if_pos h3]
        rw [hp]
        dsimp only
        unfold detectStep
        rw [pAge_set_score, if_neg h1, total_count_set_score, if_neg h2,
          ratio_set_score, child_count_set_score, if_pos h3]
        simp only [pUserId_set_score, pConnections_set_score,
          dictSet_dictSet_same]
      · have hp : detectStep p = (p, none) := by
          unfold detectStep
          rw [if_neg h1, if_neg h2, if_neg h3]
        rw [hp]; exact hp

/-- C7: running the suspicion detection twice on the same store yields
the same suspicious list both times, and the second run leaves the
store exactly as the first did (the advisory write-back is the only
mutation and does not feed back). -/
theorem detect_suspicious_idempotent (s : Analyzer) :
    detect_suspicious_content_patterns
        (detect_suspicious_content_patterns s).2
      = detect_suspicious_content_patterns s := by
  unfold detect_suspicious_content_patterns detectRaw
  simp only [List.map_map, List.filterMap_map]
  have h1 : ((fun up : String × Dict => (detectStep up.2).2) ∘
      fun up : String × Dict => (up.1, (detectStep up.2).1))
      = fun up : String × Dict => (detectStep up.2).2 := by
    funext up
    simp only [Function.comp_apply]
    rw [detectStep_stable]
  have h2 : ((fun up : String × Dict => (up.1, (detectStep up.2).1)) ∘
      fun up : String × Dict => (up.1, (detectStep up.2).1))
      = fun up : String × Dict => (up.1, (detectStep up.2).1) := by
    funext up
    simp only [Function.comp_apply]
    rw [detectStep_stable]
  rw [h1, h2]

/-! ### Properties of the stable descending sort -/

lemma insertDesc_perm (x : SusRec) (l : List SusRec) :
    List.Perm (insertDesc x l) (x :: l) := by
  induction l with
  | nil => exact List.Perm.refl _
  | cons y ys ih =>
    unfold insertDesc
    split_ifs with h
    · exact (ih.cons y).trans (List.Perm.swap x y ys)
    · exact List.Perm.refl _

lemma sortDesc_perm (l : List SusRec) : List.Perm (sortDesc l) l := by
  induction l with
  | nil => exact List.Perm.refl _
  | cons x xs ih =>
    exact (insertDesc_perm x (sortDesc xs)).trans (ih.cons x)

lemma mem_sortDesc (a : SusRec) (l : List SusRec) :
    a ∈ sortDesc l ↔ a ∈ l := (sortDesc_perm l).mem_iff

lemma insertDesc_sorted (x : SusRec) (l : List SusRec)
    (h : l.Pairwise (fun a b => b.suspicion_score ≤ a.suspicion_score)) :
    (insertDesc x l).Pairwise
      (fun a b => b.suspicion_score ≤ a.suspicion_score) := by
  induction l with
  | nil => simp [insertDesc]
  | cons y ys ih =>
    rcases List.pairwise_cons.mp h with ⟨hy, hys⟩
    unfold insertDesc
    split_ifs with hcmp
    · refine List.pairwise_cons.mpr ⟨?_, ih hys⟩
      intro z hz
      rcases List.mem_cons.mp ((insertDesc_perm x ys).mem_iff.mp hz) with
        hz | hz
      · rw [hz]; exact le_of_lt hcmp
      · exact hy z hz
    · refine List.pairwise_cons.mpr ⟨?_, h⟩
      intro z hz
      rcases List.mem_cons.mp hz with hz | hz
      · rw [hz]; exact not_lt.mp hcmp
      · exact le_trans (hy z hz) (not_lt.mp hcmp)

lemma sortDesc_sorted (l : List SusRec) :
    (sortDesc l).Pairwise
      (fun a b => b.suspicion_score ≤ a.suspicion_score) := by
  induction l with
  | nil => simp [sortDesc]
  | cons x xs ih => exact insertDesc_sorted x (sortDesc xs) ih

lemma filter_insertDesc (x : SusRec) (l : List SusRec) (q : ℚ) :
    (insertDesc x l).filter (fun r => r.suspicion_score = q)
      = (x :: l).filter (fun r => r.suspicion_score = q) := by
  induction l with
  | nil => rfl
  | cons y ys ih =>
    unfold insertDesc
    split_ifs with hcmp
    · by_cases px : x.suspicion_score = q
      · have py : ¬ y.suspicion_score = q := by
          intro py
          rw [py, px] at hcmp
          exact lt_irrefl q hcmp
        rw [List.filter_cons, List.filter_cons, List.filter_cons, ih,
          List.filter_cons]
        simp [px, py]
      · rw [List.filter_cons, List.filter_cons, List.filter_cons, ih,
          List.filter_cons]
        simp [px]
    · rfl

lemma filter_sortDesc (l : List SusRec) (q : ℚ) :
    (sortDesc l).filter (fun r => r.suspicion_score = q)
      = l.filter (fun r => r.suspicion_score = q) := by
  induction l with
  | nil => rfl
  | cons x xs ih =>
    unfold sortDesc
    rw [filter_insertDesc]
    simp only [List.filter_cons]
    rw [ih]

/-! ### C1: the flagging rule of the suspicion scorer -/

/-- C1: for an adult profile with a nonempty interaction log, the
child-content test is type ∈ {kids_video, children_game,
educational_kids} or `target_age_max` (default 100) < 13; the ratio is
child count over total count; the scorer emits a record iff the ratio
exceeds the age-adjusted threshold `max(0.1, 0.5 − (age−25)·0.02)` and
the child count exceeds 5, in which case the record carries
`suspicion_score = min(1, ratio·2)` and the profile's cached
`suspicious_score` is overwritten with it; the threshold is 0.5 at age
25 and 0.1 at age 55; profiles with age < 18 or an empty log are left
unchanged with no record; and the engine-wide list holds exactly the
records the per-user scorer emits. -/
theorem suspicion_scorer_flag_spec (s : Analyzer) (p : Dict)
    (hage : 18 ≤ pAge p) (hne : pConsumed p ≠ []) :
    (∀ i : Interaction, isChildContent i = true ↔
        (i.content_type = "kids_video" ∨ i.content_type = "children_game"
          ∨ i.content_type = "educational_kids")
        ∨ i.metadata.target_age_max.getD 100 < 13) ∧
    child_content_ratio p
      = (child_content_count p : ℚ) / (total_content_count p : ℚ) ∧
    ((detectStep p).2.isSome = true ↔
      (child_content_ratio p > suspicionThreshold (pAge p)
        ∧ child_content_count p > 5)) ∧
    (child_content_ratio p > suspicionThreshold (pAge p)
        ∧ child_content_count p > 5 →
      (detectStep p).2 = some
        { user_id := pUserId p, age := pAge p,
          child_content_ratio := child_content_ratio p,
          child_content_count := child_content_count p,
          total_content_count := total_content_count p,
          suspicion_score := suspicionScore (child_content_ratio p),
          connections_count := (pConnections p).length } ∧
      suspicionScore (child_content_ratio p)
        = ratMin 1 (child_content_ratio p * 2) ∧
      pScore (detectStep p).1 = suspicionScore (child_content_ratio p)) ∧
    (∀ age : Int, suspicionThreshold age
        = max (1/10) (1/2 - ((age : ℚ) - 25) * (2/100))) ∧
    suspicionThreshold 25 = 1/2 ∧
    suspicionThreshold 55 = 1/10 ∧
    (∀ p' : Dict, pAge p' < 18 ∨ pConsumed p' = [] →
      detectStep p' = (p', none)) ∧
    (∀ rec : SusRec, rec ∈ (detect_suspicious_content_patterns s).1 ↔
      ∃ up ∈ s.user_profiles, (detectStep up.2).2 = some rec) := by
  have htot : ¬ total_content_count p = 0 := by
    unfold total_content_count
    simpa using hne
  have hage' : ¬ pAge p < 18 := not_lt.mpr hage
  refine ⟨?_, rfl, ?_, ?_, fun _ => rfl, by decide, by decide, ?_, ?_⟩
  · intro i
    simp [isChildContent]
  · unfold detectStep
    rw [if_neg hage', if_neg htot]
    split_ifs with h3
    · simpa using h3
    · simpa using h3
  · intro h3
    have hp : detectStep p =
        (dictSet p "suspicious_score"
          (.vrat (suspicionScore (child_content_ratio p))),
         some { user_id := pUserId p, age := pAge p,
                child_content_ratio := child_content_ratio p,
                child_content_count := child_content_count p,
                total_content_count := total_content_count p,
                suspicion_score := suspicionScore (child_content_ratio p),
                connections_count := (pConnections p).length }) := by
      unfold detectStep
      rw [if_neg hage', if_neg htot, if_pos h3]
    rw [hp]
    refine ⟨rfl, rfl, ?_⟩
    unfold pScore
    rw [dictGet_dictSet_same]
  · intro p' h'
    unfold detectStep
    rcases h' with h' | h'
    · rw [if_pos h']
    · by_cases ha : pAge p' < 18
      · rw [if_pos ha]
      · rw [if_neg ha, if_pos (by simp [total_content_count, h'])]
  · intro rec
    unfold detect_suspicious_content_patterns
    dsimp only
    rw [mem_sortDesc]
    unfold detectRaw
    exact List.mem_filterMap

/-- A concrete adult profile whose 7 interactions are all child
content (data for the C1 witness). -/
def flaggedProfile : Dict :=
  [("user_id", .vstr "w"), ("age", .vint 30),
   ("registration_date", .vnat 0), ("suspicious_score", .vrat 0),
   ("content_consumed", .vinteractions
      (List.replicate 7 ⟨"c1", "kids_video", "view", 3, {}⟩)),
   ("connections", .vstrlist [])]

theorem suspicion_scorer_flag_spec_witness :
    (18 ≤ pAge flaggedProfile ∧ pConsumed flaggedProfile ≠ []) ∧
    ((detectStep flaggedProfile).2.isSome = true ↔
      (child_content_ratio flaggedProfile
          > suspicionThreshold (pAge flaggedProfile)
        ∧ child_content_count flaggedProfile > 5)) ∧
    pScore (detectStep flaggedProfile).1
      = suspicionScore (child_content_ratio flaggedProfile) :=
  ⟨⟨by decide, by decide⟩,
   (suspicion_scorer_flag_spec emptyStore flaggedProfile
     (by decide) (by decide)).2.2.1,
   ((suspicion_scorer_flag_spec emptyStore flaggedProfile
     (by decide) (by decide)).2.2.2.1 (by decide)).2.2⟩

/-! ## The suspicious-subnetwork extractor (`analyze_suspicious_networks`)

The generic graph algorithms (`nx.connected_components`, `nx.density`,
`nx.average_clustering`, `nx.is_connected`, `nx.diameter`) are embedded
directly as executable functions on the edge-list graph; connected
components are produced as node sets (their listing order is not
observable through the analysis). -/

/-- `graph.subgraph(S)`: the subgraph induced by `S ∩ nodes`. -/
def Graph.subgraph (g : Graph) (sset : List String) : Graph :=
  { nodes := g.nodes.filter (fun v => sset.contains v)
    edges := g.edges.filter
      (fun e => sset.contains e.1 && sset.contains e.2.1) }

/-- Merge the parts containing the two endpoints of an edge. -/
def mergeComps (cs : List (List String)) (e : String × String) :
    List (List String) :=
  match cs.find? (fun c => c.contains e.1),
        cs.find? (fun c => c.contains e.2) with
  | some c1, some c2 =>
    if c1 = c2 then cs
    else (cs.filter (fun c => c ≠ c1 ∧ c ≠ c2)) ++ [c1 ++ c2]
  | _, _ => cs

/-- `nx.connected_components(g)`: start from singleton parts and merge
along every edge. -/
def connectedComponents (g : Graph) : List (List String) :=
  g.edges.foldl (fun cs e => mergeComps cs (e.1, e.2.1))
    (g.nodes.map (fun v => [v]))

/-- `nx.density(g)`. -/
def Graph.density (g : Graph) : ℚ :=
  let n := g.nodes.length
  let m := g.edges.length
  if m = 0 ∨ n ≤ 1 then 0
  else (2 * m : ℚ) / ((n : ℚ) * ((n : ℚ) - 1))

/-- Number of edges among the neighbors of `v`. -/
def Graph.triangles (g : Graph) (v : String) : Nat :=
  let nb := g.nbrs v
  ((nb.map (fun u => (nb.filter (fun w => g.hasEdge u w)).length)).sum) / 2

/-- Local clustering coefficient of `v`. -/
def Graph.localClustering (g : Graph) (v : String) : ℚ :=
  let d := (g.nbrs v).length
  if d < 2 then 0
  else (2 * g.triangles v : ℚ) / ((d : ℚ) * ((d : ℚ) - 1))

/-- `nx.average_clustering(g)`. -/
def Graph.averageClustering (g : Graph) : ℚ :=
  if g.nodes.length = 0 then 0
  else (g.nodes.map g.localClustering).sum / (g.nodes.length : ℚ)

/-- One BFS round: the set together with all neighbors of the set. -/
def bfsExpand (g : Graph) (visited : List String) : List String :=
  visited ++ g.nodes.filter
    (fun u => ¬ visited.contains u ∧ visited.any (fun v => g.hasEdge v u))

/-- `n` BFS rounds from a start set. -/
def expandN (g : Graph) : Nat → List String → List String
  | 0, vs => vs
  | n + 1, vs => expandN g n (bfsExpand g vs)

/-- The nodes within `g.nodes.length` BFS rounds of `src`. -/
def reachableFrom (g : Graph) (src : String) : List String :=
  expandN g g.nodes.length [src]

/-- `nx.is_connected(g)` (false on the empty graph, which `nx`
rejects). -/
def Graph.isConnected (g : Graph) : Bool :=
  match g.nodes with
  | [] => false
  | v :: _ => g.nodes.all (fun u => (reachableFrom g v).contains u)

/-- BFS distance: the first round at which `target` is reached. -/
def firstReachIter (g : Graph) (src target : String) : Option Nat :=
  (List.range (g.nodes.length + 1)).find?
    (fun n => (expandN g n [src]).contains target)

/-- `nx.diameter(g)` (meaningful on connected graphs, where every
distance is defined). -/
def Graph.diam (g : Graph) : Nat :=
  (g.nodes.map (fun u => (g.nodes.map
    (fun v => (firstReachIter g u v).getD 0)).foldl Nat.max 0)).foldl
    Nat.max 0

/-- Insertion-ordered deduplication (a Python `set` built by
accumulation, observed only through membership). -/
def dedup (l : List String) : List String :=
  l.foldl (fun acc v => if acc.contains v then acc else acc ++ [v]) []

/-- `suspicious_user_ids = {u['user_id'] for u in suspicious_users}`. -/
def suspiciousIds (sus : List SusRec) : List String :=
  dedup (sus.map (fun r => r.user_id))

/-- `extended_suspicious`: the suspicious ids with their direct
neighbors. -/
def extendedSuspicious (s : Analyzer) (sus : List SusRec) : List String :=
  suspiciousIds sus ++ ((suspiciousIds sus).map s.graph.nbrs).flatten

/-- The induced subgraph over the extended suspicious set. -/
def suspiciousSubgraph (s : Analyzer) (sus : List SusRec) : Graph :=
  s.graph.subgraph (extendedSuspicious s sus)

/-- One itemised entry of `components_analysis`. -/
structure CompAnalysis where
  component_id : Nat
  total_users : Nat
  suspicious_users : Nat
  suspicious_user_ids : List String
  density : ℚ
  avg_clustering : ℚ
  diameter : Option Nat
  deriving DecidableEq, Repr

/-- The result dict of `analyze_suspicious_networks`. -/
structure NetworkAnalysis where
  total_suspicious_users : Nat
  connected_components : Nat
  largest_component_size : Nat
  components_analysis : List CompAnalysis
  deriving DecidableEq, Repr

/-- The entry built for the `i`-th component (`ic = (i, component)`);
`diameter = none` models the `'N/A'` sentinel. -/
def componentItem (sub : Graph) (ids : List String)
    (ic : Nat × List String) : CompAnalysis :=
  let csub := sub.subgraph ic.2
  { component_id := ic.1
    total_users := ic.2.length
    suspicious_users := (ic.2.filter (fun v => ids.contains v)).length
    suspicious_user_ids := ic.2.filter (fun v => ids.contains v)
    density := csub.density
    avg_clustering := csub.averageClustering
    diameter := if csub.isConnected then some csub.diam else none }

/-- `analyze_suspicious_networks(suspicious_users)`. -/
def analyze_suspicious_networks (s : Analyzer) (sus : List SusRec) :
    NetworkAnalysis :=
  { total_suspicious_users := (suspiciousIds sus).length
    connected_components :=
      (connectedComponents (suspiciousSubgraph s sus)).length
    largest_component_size :=
      ((connectedComponents (suspiciousSubgraph s sus)).map
        List.length).foldl Nat.max 0
    components_analysis :=
      (connectedComponents (suspiciousSubgraph s sus)).enum.filterMap
        (fun ic =>
          if 1 < (ic.2.filter
              (fun v => (suspiciousIds sus).contains v)).length
          then some (componentItem (suspiciousSubgraph s sus)
            (suspiciousIds sus) ic)
          else none) }

/-! ### Correctness of the component partition -/

/-- A single undirected step along one of the listed edges. -/
def edgeStep (es : List (String × String × EdgeData)) (u v : String) :
    Prop :=
  ∃ e ∈ es, (e.1 = u ∧ e.2.1 = v) ∨ (e.1 = v ∧ e.2.1 = u)

/-- Connectivity along the listed edges. -/
def ConnVia (es : List (String × String × EdgeData)) (u v : String) :
    Prop :=
  Relation.ReflTransGen (edgeStep es) u v

/-- Two nodes lie in a common part. -/
def sameComp (cs : List (List String)) (u v : String) : Prop :=
  ∃ c ∈ cs, u ∈ c ∧ v ∈ c

lemma edgeStep_mono {es : List (String × String × EdgeData)}
    {e : String × String × EdgeData} {u v : String}
    (h : edgeStep es u v) : edgeStep (es ++ [e]) u v := by
  rcases h with ⟨e', he', hm⟩
  exact ⟨e', List.mem_append_left _ he', hm⟩

lemma ConnVia_mono {es : List (String × String × EdgeData)}
    {e : String × String × EdgeData} {u v : String}
    (h : ConnVia es u v) : ConnVia (es ++ [e]) u v :=
  Relation.ReflTransGen.mono (fun _ _ hs => edgeStep_mono hs) h

lemma ConnVia_nil {u v : String} (h : ConnVia [] u v) : u = v := by
  induction h with
  | refl => rfl
  | tail _ hs _ => rcases hs with ⟨e, he, _⟩; cases he

/-- Decomposition of a path using an appended edge `e`: either the
path avoids `e`, or it crosses it once in one of the two
directions (after which it may use it freely, collapsed here). -/
lemma ConnVia_snoc {es : List (String × String × EdgeData)}
    {e : String × String × EdgeData} {u v : String}
    (h : ConnVia (es ++ [e]) u v) :
    ConnVia es u v ∨
    (ConnVia es u e.1 ∧ ConnVia es e.2.1 v) ∨
    (ConnVia es u e.2.1 ∧ ConnVia es e.1 v) := by
  induction h with
  | refl => exact Or.inl .refl
  | tail _ hs ih =>
    rcases hs with ⟨e', he', hm⟩
    rcases List.mem_append.mp he' with he' | he'
    · -- a step along an old edge
      rcases ih with ih | ⟨ih1, ih2⟩ | ⟨ih1, ih2⟩
      · exact Or.inl (ih.tail ⟨e', he', hm⟩)
      · exact Or.inr (Or.inl ⟨ih1, ih2.tail ⟨e', he', hm⟩⟩)
      · exact Or.inr (Or.inr ⟨ih1, ih2.tail ⟨e', he', hm⟩⟩)
    · -- a step along the new edge
      rcases List.mem_singleton.mp he' with rfl
      rcases hm with ⟨hb, hc⟩ | ⟨hc, hb⟩
      · -- b = e.1, c = e.2.1
        subst hb; subst hc
        rcases ih with ih | ⟨ih1, _⟩ | ⟨ih1, _⟩
        · exact Or.inr (Or.inl ⟨ih, .refl⟩)
        · exact Or.inr (Or.inl ⟨ih1, .refl⟩)
        · exact Or.inl ih1
      · -- b = e.2.1, c = e.1
        subst hb; subst hc
        rcases ih with ih | ⟨ih1, _⟩ | ⟨ih1, _⟩
        · exact Or.inr (Or.inr ⟨ih, .refl⟩)
        · exact Or.inl ih1
        · exact Or.inr (Or.inr ⟨ih1, .refl⟩)

/-- The invariant tying a part list to connectivity along a set of
edges: parts stay inside the node set, cover it, are disjoint, and two
nodes share a part exactly when they are connected. -/
structure CompsInv (nodes : List String)
    (es : List (String × String × EdgeData))
    (cs : List (List String)) : Prop where
  subset : ∀ c ∈ cs, ∀ v ∈ c, v ∈ nodes
  cover : ∀ v ∈ nodes, ∃ c ∈ cs, v ∈ c
  unique : ∀ v c c', c ∈ cs → c' ∈ cs → v ∈ c → v ∈ c' → c = c'
  conn : ∀ u v, sameComp cs u v ↔
    (u ∈ nodes ∧ v ∈ nodes ∧ ConnVia es u v)

lemma compsInv_init (nodes : List String) :
    CompsInv nodes [] (nodes.map (fun v => [v])) := by
  constructor
  · intro c hc v hv
    rcases List.mem_map.mp hc with ⟨w, hw, rfl⟩
    rcases List.mem_singleton.mp hv with rfl
    exact hw
  · intro v hv
    exact ⟨[v], List.mem_map_of_mem _ hv, List.mem_singleton_self v⟩
  · intro v c c' hc hc' hvc hvc'
    rcases List.mem_map.mp hc with ⟨w, _, rfl⟩
    rcases List.mem_map.mp hc' with ⟨w', _, rfl⟩
    rcases List.mem_singleton.mp hvc with rfl
    rcases List.mem_singleton.mp hvc' with rfl
    rfl
  · intro u v
    constructor
    · rintro ⟨c, hc, huc, hvc⟩
      rcases List.mem_map.mp hc with ⟨w, hw, rfl⟩
      rcases List.mem_singleton.mp huc with rfl
      rcases List.mem_singleton.mp hvc with rfl
      exact ⟨hw, hw, .refl⟩
    · rintro ⟨hu, _, hconn⟩
      rcases ConnVia_nil hconn with rfl
      exact ⟨[u], List.mem_map_of_mem _ hu, List.mem_singleton_self u,
        List.mem_singleton_self u⟩

lemma compsInv_step {nodes : List String}
    {es : List (String × String × EdgeData)} {cs : List (List String)}
    (e : String × String × EdgeData)
    (he1 : e.1 ∈ nodes) (he2 : e.2.1 ∈ nodes)
    (inv : CompsInv nodes es cs) :
    CompsInv nodes (es ++ [e]) (mergeComps cs (e.1, e.2.1)) := by
  obtain ⟨d1, hd1, hed1⟩ := inv.cover e.1 he1
  obtain ⟨d2, hd2, hed2⟩ := inv.cover e.2.1 he2
  obtain ⟨c1, hf1⟩ : ∃ c1, cs.find? (fun c => c.contains e.1) = some c1 := by
    cases hf : cs.find? (fun c => c.contains e.1) with
    | none =>
      exfalso
      have := List.find?_eq_none.mp hf d1 hd1
      simp at this
      exact this hed1
    | some c1 => exact ⟨c1, rfl⟩
  obtain ⟨c2, hf2⟩ : ∃ c2, cs.find? (fun c => c.contains e.2.1) = some c2 := by
    cases hf : cs.find? (fun c => c.contains e.2.1) with
    | none =>
      exfalso
      have := List.find?_eq_none.mp hf d2 hd2
      simp at this
      exact this hed2
    | some c2 => exact ⟨c2, rfl⟩
  have hc1cs : c1 ∈ cs := List.mem_of_find?_eq_some hf1
  have hc2cs : c2 ∈ cs := List.mem_of_find?_eq_some hf2
  have hec1 : e.1 ∈ c1 := by
    have := List.find?_some hf1
    simpa using this
  have hec2 : e.2.1 ∈ c2 := by
    have := List.find?_some hf2
    simpa using this
  have estep : edgeStep (es ++ [e]) e.1 e.2.1 :=
    ⟨e, List.mem_append_right _ (List.mem_singleton_self e),
      Or.inl ⟨rfl, rfl⟩⟩
  have estep' : edgeStep (es ++ [e]) e.2.1 e.1 :=
    ⟨e, List.mem_append_right _ (List.mem_singleton_self e),
      Or.inr ⟨rfl, rfl⟩⟩
  have hmerge : mergeComps cs (e.1, e.2.1) =
      if c1 = c2 then cs
      else (cs.filter (fun c => c ≠ c1 ∧ c ≠ c2)) ++ [c1 ++ c2] := by
    unfold mergeComps
    dsimp only
    rw [hf1, hf2]
  rw [hmerge]
  split_ifs with hceq
  · subst hceq
    refine ⟨inv.subset, inv.cover, inv.unique, ?_⟩
    intro u v
    constructor
    · intro hsc
      obtain ⟨hu, hv, hcv⟩ := (inv.conn u v).mp hsc
      exact ⟨hu, hv, ConnVia_mono hcv⟩
    · rintro ⟨hu, hv, hconn⟩
      rcases ConnVia_snoc hconn with h | ⟨h1, h2⟩ | ⟨h1, h2⟩
      · exact (inv.conn u v).mpr ⟨hu, hv, h⟩
      · obtain ⟨d, hd, hud, hed⟩ := (inv.conn u e.1).mpr ⟨hu, he1, h1⟩
        obtain ⟨d', hd', hed', hvd'⟩ := (inv.conn e.2.1 v).mpr ⟨he2, hv, h2⟩
        have hdc : d = c1 := inv.unique e.1 d c1 hd hc1cs hed hec1
        have hd'c : d' = c1 := inv.unique e.2.1 d' c1 hd' hc2cs hed' hec2
        exact ⟨c1, hc1cs, hdc ▸ hud, hd'c ▸ hvd'⟩
      · obtain ⟨d, hd, hud, hed⟩ := (inv.conn u e.2.1).mpr ⟨hu, he2, h1⟩
        obtain ⟨d', hd', hed', hvd'⟩ := (inv.conn e.1 v).mpr ⟨he1, hv, h2⟩
        have hdc : d = c1 := inv.unique e.2.1 d c1 hd hc2cs hed hec2
        have hd'c : d' = c1 := inv.unique e.1 d' c1 hd' hc1cs hed' hec1
        exact ⟨c1, hc1cs, hdc ▸ hud, hd'c ▸ hvd'⟩
  · have hmem' : ∀ c : List String,
        c ∈ (cs.filter (fun c => c ≠ c1 ∧ c ≠ c2)) ++ [c1 ++ c2]
          ↔ ((c ∈ cs ∧ c ≠ c1 ∧ c ≠ c2) ∨ c = c1 ++ c2) := by
      intro c
      rw [List.mem_append, List.mem_filter, List.mem_singleton]
      simp only [decide_eq_true_eq]
    have hnode12 : ∀ w, w ∈ c1 ++ c2 → w ∈ nodes := by
      intro w hw
      rcases List.mem_append.mp hw with h | h
      · exact inv.subset c1 hc1cs w h
      · exact inv.subset c2 hc2cs w h
    refine ⟨?_, ?_, ?_, ?_⟩
    · intro c hc v hv
      rcases (hmem' c).mp hc with ⟨hccs, _⟩ | rfl
      · exact inv.subset c hccs v hv
      · exact hnode12 v hv
    · intro v hv
      obtain ⟨c, hccs, hvc⟩ := inv.cover v hv
      by_cases h1 : c = c1
      · exact ⟨c1 ++ c2, (hmem' _).mpr (Or.inr rfl),
          List.mem_append_left _ (h1 ▸ hvc)⟩
      by_cases h2 : c = c2
      · exact ⟨c1 ++ c2, (hmem' _).mpr (Or.inr rfl),
          List.mem_append_right _ (h2 ▸ hvc)⟩
      · exact ⟨c, (hmem' c).mpr (Or.inl ⟨hccs, h1, h2⟩), hvc⟩
    · intro v c c' hc hc' hvc hvc'
      rcases (hmem' c).mp hc with ⟨hccs, hne1, hne2⟩ | rfl
      · rcases (hmem' c').mp hc' with ⟨hc'cs, _, _⟩ | rfl
        · exact inv.unique v c c' hccs hc'cs hvc hvc'
        · exfalso
          rcases List.mem_append.mp hvc' with h | h
          · exact hne1 (inv.unique v c c1 hccs hc1cs hvc h)
          · exact hne2 (inv.unique v c c2 hccs hc2cs hvc h)
      · rcases (hmem' c').mp hc' with ⟨hc'cs, hne1, hne2⟩ | rfl
        · exfalso
          rcases List.mem_append.mp hvc with h | h
          · exact hne1 (inv.unique v c' c1 hc'cs hc1cs hvc' h)
          · exact hne2 (inv.unique v c' c2 hc'cs hc2cs hvc' h)
        · rfl
    · intro u v
      constructor
      · rintro ⟨c, hc, huc, hvc⟩
        rcases (hmem' c).mp hc with ⟨hccs, _⟩ | rfl
        · obtain ⟨hu, hv, hcv⟩ := (inv.conn u v).mp ⟨c, hccs, huc, hvc⟩
          exact ⟨hu, hv, ConnVia_mono hcv⟩
        · refine ⟨hnode12 u huc, hnode12 v hvc, ?_⟩
          rcases List.mem_append.mp huc with hu1 | hu2 <;>
            rcases List.mem_append.mp hvc with hv1 | hv2
          · exact ConnVia_mono
              ((inv.conn u v).mp ⟨c1, hc1cs, hu1, hv1⟩).2.2
          · have pu : ConnVia (es ++ [e]) u e.1 := ConnVia_mono
              ((inv.conn u e.1).mp ⟨c1, hc1cs, hu1, hec1⟩).2.2
            have pv : ConnVia (es ++ [e]) e.2.1 v := ConnVia_mono
              ((inv.conn e.2.1 v).mp ⟨c2, hc2cs, hec2, hv2⟩).2.2
            exact (pu.tail estep).trans pv
          · have pu : ConnVia (es ++ [e]) u e.2.1 := ConnVia_mono
              ((inv.conn u e.2.1).mp ⟨c2, hc2cs, hu2, hec2⟩).2.2
            have pv : ConnVia (es ++ [e]) e.1 v := ConnVia_mono
              ((inv.conn e.1 v).mp ⟨c1, hc1cs, hec1, hv1⟩).2.2
            exact (pu.tail estep').trans pv
          · exact ConnVia_mono
              ((inv.conn u v).mp ⟨c2, hc2cs, hu2, hv2⟩).2.2
      · rintro ⟨hu, hv, hconn⟩
        have lift : ∀ a b, sameComp cs a b →
            sameComp ((cs.filter (fun c => c ≠ c1 ∧ c ≠ c2))
              ++ [c1 ++ c2]) a b := by
          rintro a b ⟨d, hd, had, hbd⟩
          by_cases h1 : d = c1
          · exact ⟨c1 ++ c2, (hmem' _).mpr (Or.inr rfl),
              List.mem_append_left _ (h1 ▸ had),
              List.mem_append_left _ (h1 ▸ hbd)⟩
          by_cases h2 : d = c2
          · exact ⟨c1 ++ c2, (hmem' _).mpr (Or.inr rfl),
              List.mem_append_right _ (h2 ▸ had),
              List.mem_append_right _ (h2 ▸ hbd)⟩
          · exact ⟨d, (hmem' d).mpr (Or.inl ⟨hd, h1, h2⟩), had, hbd⟩
        rcases ConnVia_snoc hconn with h | ⟨h1, h2⟩ | ⟨h1, h2⟩
        · exact lift u v ((inv.conn u v).mpr ⟨hu, hv, h⟩)
        · obtain ⟨d, hd, hud, hed⟩ := (inv.conn u e.1).mpr ⟨hu, he1, h1⟩
          obtain ⟨d', hd', hed', hvd'⟩ :=
            (inv.conn e.2.1 v).mpr ⟨he2, hv, h2⟩
          have hdc : d = c1 := inv.unique e.1 d c1 hd hc1cs hed hec1
          have hd'c : d' = c2 := inv.unique e.2.1 d' c2 hd' hc2cs hed' hec2
          exact ⟨c1 ++ c2, (hmem' _).mpr (Or.inr rfl),
            List.mem_append_left _ (hdc ▸ hud),
            List.mem_append_right _ (hd'c ▸ hvd')⟩
        · obtain ⟨d, hd, hud, hed⟩ := (inv.conn u e.2.1).mpr ⟨hu, he2, h1⟩
          obtain ⟨d', hd', hed', hvd'⟩ :=
            (inv.conn e.1 v).mpr ⟨he1, hv, h2⟩
          have hdc : d = c2 := inv.unique e.2.1 d c2 hd hc2cs hed hec2
          have hd'c : d' = c1 := inv.unique e.1 d' c1 hd' hc1cs hed' hec1
          exact ⟨c1 ++ c2, (hmem' _).mpr (Or.inr rfl),
            List.mem_append_right _ (hdc ▸ hud),
            List.mem_append_left _ (hd'c ▸ hvd')⟩

lemma compsInv_fold (nodes : List String)
    (es : List (String × String × EdgeData))
    (hv : ∀ e ∈ es, e.1 ∈ nodes ∧ e.2.1 ∈ nodes) :
    CompsInv nodes es (es.foldl (fun cs e => mergeComps cs (e.1, e.2.1))
      (nodes.map (fun v => [v]))) := by
  induction es using List.reverseRecOn with
  | nil => exact compsInv_init nodes
  | append_singleton es' e ih =>
    rw [List.foldl_append, List.foldl_cons, List.foldl_nil]
    exact compsInv_step e (hv e (by simp)).1 (hv e (by simp)).2
      (ih (fun e' he' => hv e' (List.mem_append_left _ he')))

/-- The component computation satisfies the invariant for every
well-formed graph. -/
lemma connectedComponents_spec (g : Graph)
    (hwf : ∀ e ∈ g.edges, e.1 ∈ g.nodes ∧ e.2.1 ∈ g.nodes) :
    CompsInv g.nodes g.edges (connectedComponents g) :=
  compsInv_fold g.nodes g.edges hwf

lemma le_foldl_max (l : List Nat) (a : Nat) :
    a ≤ l.foldl Nat.max a ∧ ∀ x ∈ l, x ≤ l.foldl Nat.max a := by
  induction l generalizing a with
  | nil => exact ⟨le_refl a, by simp⟩
  | cons y ys ih =>
    obtain ⟨h1, h2⟩ := ih (Nat.max a y)
    refine ⟨le_trans (Nat.le_max_left a y) h1, ?_⟩
    intro x hx
    rcases List.mem_cons.mp hx with rfl | hx
    · exact le_trans (Nat.le_max_right a x) h1
    · exact h2 x hx

lemma subgraph_wf (g : Graph) (sset : List String)
    (hwf : ∀ e ∈ g.edges, e.1 ∈ g.nodes ∧ e.2.1 ∈ g.nodes) :
    ∀ e ∈ (g.subgraph sset).edges,
      e.1 ∈ (g.subgraph sset).nodes ∧ e.2.1 ∈ (g.subgraph sset).nodes := by
  intro e he
  unfold Graph.subgraph at he ⊢
  rw [List.mem_filter] at he
  obtain ⟨hge, hcond⟩ := he
  simp only [Bool.and_eq_true] at hcond
  constructor <;> rw [List.mem_filter]
  · exact ⟨(hwf e hge).1, hcond.1⟩
  · exact ⟨(hwf e hge).2, hcond.2⟩

lemma hasEdge_mem_right (g : Graph)
    (hwf : ∀ e ∈ g.edges, e.1 ∈ g.nodes ∧ e.2.1 ∈ g.nodes)
    (u v : String) (h : g.hasEdge u v = true) : v ∈ g.nodes := by
  unfold Graph.hasEdge at h
  rcases List.any_eq_true.mp h with ⟨e, he, hm⟩
  unfold edgeMatches at hm
  simp only [Bool.or_eq_true, Bool.and_eq_true, beq_iff_eq] at hm
  rcases hm with ⟨_, h2⟩ | ⟨h1, _⟩
  · exact h2 ▸ (hwf e he).2
  · exact h1 ▸ (hwf e he).1

lemma mem_nbrs (g : Graph) (u v : String) :
    v ∈ g.nbrs u ↔ v ∈ g.nodes ∧ g.hasEdge u v = true := by
  unfold Graph.nbrs
  rw [List.mem_filter]

lemma suspiciousSubgraph_nodes (s : Analyzer) (sus : List SusRec)
    (hids : ∀ v ∈ suspiciousIds sus, v ∈ s.graph.nodes)
    (hwf : ∀ e ∈ s.graph.edges, e.1 ∈ s.graph.nodes ∧ e.2.1 ∈ s.graph.nodes)
    (v : String) :
    v ∈ (suspiciousSubgraph s sus).nodes ↔
      (v ∈ suspiciousIds sus ∨
        ∃ u ∈ suspiciousIds sus, s.graph.hasEdge u v = true) := by
  unfold suspiciousSubgraph Graph.subgraph
  rw [List.mem_filter]
  constructor
  · rintro ⟨hvg, hvc⟩
    have hvext : v ∈ extendedSuspicious s sus := by simpa using hvc
    unfold extendedSuspicious at hvext
    rcases List.mem_append.mp hvext with h | h
    · exact Or.inl h
    · rcases List.mem_flatten.mp h with ⟨nb, hnb, hvnb⟩
      rcases List.mem_map.mp hnb with ⟨u, hu, rfl⟩
      exact Or.inr ⟨u, hu, ((mem_nbrs s.graph u v).mp hvnb).2⟩
  · intro h
    have hvg : v ∈ s.graph.nodes := by
      rcases h with h | ⟨u, _, he⟩
      · exact hids v h
      · exact hasEdge_mem_right s.graph hwf u v he
    refine ⟨hvg, ?_⟩
    have hvext : v ∈ extendedSuspicious s sus := by
      unfold extendedSuspicious
      rcases h with h | ⟨u, hu, he⟩
      · exact List.mem_append_left _ h
      · refine List.mem_append_right _ ?_
        exact List.mem_flatten.mpr ⟨s.graph.nbrs u,
          List.mem_map_of_mem _ hu, (mem_nbrs s.graph u v).mpr ⟨hvg, he⟩⟩
    simpa using hvext

/-- C4: the extractor's node set is the suspicious ids together with
all their direct neighbors; the subgraph is the induced one; the
computed components form a partition of the subgraph's nodes in which
two nodes share a part exactly when they are connected; a component is
itemised (with size, suspicious count and ids, density, average
clustering, and diameter with `none` as the not-connected sentinel)
exactly when it holds at least 2 suspicious members; and every
component, itemised or not, counts toward the component-count and
largest-component-size totals. -/
theorem suspicious_network_extraction_spec (s : Analyzer)
    (sus : List SusRec)
    (hids : ∀ v ∈ suspiciousIds sus, v ∈ s.graph.nodes)
    (hwf : ∀ e ∈ s.graph.edges,
      e.1 ∈ s.graph.nodes ∧ e.2.1 ∈ s.graph.nodes) :
    (∀ v, v ∈ (suspiciousSubgraph s sus).nodes ↔
      (v ∈ suspiciousIds sus ∨
        ∃ u ∈ suspiciousIds sus, s.graph.hasEdge u v = true)) ∧
    (∀ e, e ∈ (suspiciousSubgraph s sus).edges ↔
      (e ∈ s.graph.edges ∧ e.1 ∈ (suspiciousSubgraph s sus).nodes ∧
        e.2.1 ∈ (suspiciousSubgraph s sus).nodes)) ∧
    (∀ v ∈ (suspiciousSubgraph s sus).nodes,
      ∃ c ∈ connectedComponents (suspiciousSubgraph s sus), v ∈ c) ∧
    (∀ v c c', c ∈ connectedComponents (suspiciousSubgraph s sus) →
      c' ∈ connectedComponents (suspiciousSubgraph s sus) →
      v ∈ c → v ∈ c' → c = c') ∧
    (∀ u v, sameComp (connectedComponents (suspiciousSubgraph s sus)) u v
      ↔ (u ∈ (suspiciousSubgraph s sus).nodes ∧
         v ∈ (suspiciousSubgraph s sus).nodes ∧
         ConnVia (suspiciousSubgraph s sus).edges u v)) ∧
    (∀ a : CompAnalysis,
      a ∈ (analyze_suspicious_networks s sus).components_analysis ↔
      ∃ ic ∈ (connectedComponents (suspiciousSubgraph s sus)).enum,
        1 < (ic.2.filter
          (fun v => (suspiciousIds sus).contains v)).length ∧
        a = componentItem (suspiciousSubgraph s sus)
              (suspiciousIds sus) ic) ∧
    (∀ ic : Nat × List String,
      (componentItem (suspiciousSubgraph s sus) (suspiciousIds sus)
          ic).total_users = ic.2.length ∧
      (componentItem (suspiciousSubgraph s sus) (suspiciousIds sus)
          ic).suspicious_users
        = (ic.2.filter (fun v => (suspiciousIds sus).contains v)).length ∧
      (componentItem (suspiciousSubgraph s sus) (suspiciousIds sus)
          ic).density = ((suspiciousSubgraph s sus).subgraph ic.2).density ∧
      (componentItem (suspiciousSubgraph s sus) (suspiciousIds sus)
          ic).avg_clustering
        = ((suspiciousSubgraph s sus).subgraph ic.2).averageClustering ∧
      ((componentItem (suspiciousSubgraph s sus) (suspiciousIds sus)
          ic).diameter = none ↔
        ((suspiciousSubgraph s sus).subgraph ic.2).isConnected = false)) ∧
    (analyze_suspicious_networks s sus).connected_components
      = (connectedComponents (suspiciousSubgraph s sus)).length ∧
    (∀ c ∈ connectedComponents (suspiciousSubgraph s sus),
      c.length ≤
        (analyze_suspicious_networks s sus).largest_component_size) ∧
    (analyze_suspicious_networks s sus).total_suspicious_users
      = (suspiciousIds sus).length := by
  have hsubwf := subgraph_wf s.graph (extendedSuspicious s sus) hwf
  have inv := connectedComponents_spec (suspiciousSubgraph s sus) hsubwf
  refine ⟨suspiciousSubgraph_nodes s sus hids hwf, ?_, inv.cover,
    inv.unique, inv.conn, ?_, ?_, rfl, ?_, rfl⟩
  · intro e
    unfold suspiciousSubgraph Graph.subgraph
    rw [List.mem_filter]
    simp only [Bool.and_eq_true, List.mem_filter]
    constructor
    · rintro ⟨hge, hc1, hc2⟩
      exact ⟨hge, ⟨(hwf e hge).1, hc1⟩, ⟨(hwf e hge).2, hc2⟩⟩
    · rintro ⟨hge, ⟨_, hc1⟩, ⟨_, hc2⟩⟩
      exact ⟨hge, hc1, hc2⟩
  · intro a
    show a ∈ (connectedComponents (suspiciousSubgraph s sus)).enum.filterMap
      _ ↔ _
    rw [List.mem_filterMap]
    constructor
    · rintro ⟨ic, hic, hfc⟩
      split_ifs at hfc with hcond
      exact ⟨ic, hic, hcond, (Option.some.inj hfc).symm⟩
    · rintro ⟨ic, hic, hcond, rfl⟩
      exact ⟨ic, hic, by rw [if_pos hcond]⟩
  · intro ic
    refine ⟨rfl, rfl, rfl, rfl, ?_⟩
    unfold componentItem
    dsimp only
    split_ifs with h
    · exact iff_of_false (by simp) (by simp [h])
    · exact iff_of_true rfl (by simpa using h)
  · intro c hc
    exact (le_foldl_max ((connectedComponents
      (suspiciousSubgraph s sus)).map List.length) 0).2 c.length
      (List.mem_map_of_mem _ hc)

/-- Concrete data for the C4 witness: suspicious users A, B, C with
A–B connected, B–D an outside neighbor, C isolated. -/
def compStore : Analyzer :=
  { graph := { nodes := ["A", "B", "C", "D"],
               edges := [("A", "B", ⟨"friend", 1, 0⟩),
                         ("B", "D", ⟨"friend", 1, 0⟩)] },
    user_profiles := [], content_data := [] }

/-- The suspicious records for `compStore`. -/
def compSus : List SusRec :=
  [⟨"A", 30, 1, 6, 6, 1, 0⟩, ⟨"B", 30, 1, 6, 6, 1, 0⟩,
   ⟨"C", 30, 1, 6, 6, 1, 0⟩]

theorem suspicious_network_extraction_spec_witness :
    (∀ v ∈ suspiciousIds compSus, v ∈ compStore.graph.nodes) ∧
    (∀ e ∈ compStore.graph.edges,
      e.1 ∈ compStore.graph.nodes ∧ e.2.1 ∈ compStore.graph.nodes) ∧
    (analyze_suspicious_networks compStore compSus).connected_components
      = (connectedComponents (suspiciousSubgraph compStore compSus)).length :=
  ⟨by decide, by decide,
   (suspicious_network_extraction_spec compStore compSus (by decide)
     (by decide)).2.2.2.2.2.2.2.1⟩

/-! ## The report aggregator (`generate_risk_report`) -/

/-- Per-node centrality metrics.  The four centrality algorithms are
delegated to the external graph library (`nx.degree_centrality`,
`nx.betweenness_centrality`, `nx.closeness_centrality`,
`nx.eigenvector_centrality`), modelled by an oracle the report builder
receives; the engine only builds the node-keyed dict from it and joins
it with the suspicious list. -/
structure CentMetrics where
  degree : ℚ
  betweenness : ℚ
  closeness : ℚ
  eigenvector : ℚ
  deriving DecidableEq, Repr

/-- `calculate_user_centrality_metrics()`: one entry per graph node. -/
def calculate_user_centrality_metrics (s : Analyzer)
    (cent : String → CentMetrics) : List (String × CentMetrics) :=
  s.graph.nodes.map (fun v => (v, cent v))

/-- One entry of `influential_suspicious`: a suspicion record with the
user's centrality metrics copied in. -/
structure InfRec where
  base : SusRec
  metrics : CentMetrics
  deriving DecidableEq, Repr

/-- `report['summary']`. -/
structure Summary where
  total_users : Nat
  total_connections : Nat
  suspicious_users_count : Nat
  high_risk_users : Nat
  deriving DecidableEq, Repr

/-- The risk report. -/
structure Report where
  summary : Summary
  suspicious_users : List SusRec
  network_analysis : NetworkAnalysis
  influential_suspicious : List InfRec
  recommendations : List String
  deriving DecidableEq, Repr

/-- `_generate_recommendations(suspicious_users, network_analysis)`. -/
def generate_recommendations (sus : List SusRec)
    (na : NetworkAnalysis) : List String :=
  (if sus.length > 10 then
    ["ALERTA: " ++ toString sus.length ++ " usuários com padrões "
      ++ "suspeitos detectados. Recomenda-se investigação manual dos "
      ++ "casos de maior risco."]
   else []) ++
  (if (sus.filter (fun u => u.suspicion_score > 7/10)).length > 0 then
    ["PRIORIDADE ALTA: "
      ++ toString (sus.filter (fun u => u.suspicion_score > 7/10)).length
      ++ " usuários com score de risco > 0.7. Estes casos requerem "
      ++ "atenção imediata."]
   else []) ++
  (if na.connected_components > 0 then
    ["REDES IDENTIFICADAS: " ++ toString na.connected_components
      ++ " grupos de usuários suspeitos conectados foram identificados. "
      ++ "Investigar possíveis coordenação entre usuários."]
   else []) ++
  (if (na.components_analysis.filter
      (fun c => c.suspicious_users ≥ 3)).length > 0 then
    ["REDES COMPLEXAS: " ++ toString (na.components_analysis.filter
        (fun c => c.suspicious_users ≥ 3)).length
      ++ " grupos com 3+ usuários suspeitos conectados. Estas redes "
      ++ "podem indicar atividade coordenada."]
   else [])

/-- `generate_risk_report()`, parameterised by the centrality oracle:
the report together with the store after the scorer's write-backs. -/
def generate_risk_report (s : Analyzer) (cent : String → CentMetrics) :
    Report × Analyzer :=
  let det := detect_suspicious_content_patterns s
  let na := analyze_suspicious_networks det.2 det.1
  let cm := calculate_user_centrality_metrics det.2 cent
  let influential := (det.1.take 10).filterMap
    (fun u => match dictGet cm u.user_id with
      | some m => some (⟨u, m⟩ : InfRec)
      | none => none)
  ({ summary := { total_users := det.2.user_profiles.length
                  total_connections := det.2.graph.edges.length
                  suspicious_users_count := det.1.length
                  high_risk_users := (det.1.filter
                    (fun u => u.suspicion_score > 7/10)).length }
     suspicious_users := det.1.take 20
     network_analysis := na
     influential_suspicious := influential
     recommendations := generate_recommendations det.1 na },
   det.2)

/-- C5: the report's suspicious list is the stable descending sort of
the discovered records, truncated to 20 (ties keep discovery order);
at most 10 influential-suspicious entries are listed;
`suspicious_users_count` counts the full pre-truncation list; and
`high_risk_users` counts records with score strictly above 0.7. -/
theorem report_ranking_and_counts (s : Analyzer)
    (cent : String → CentMetrics) :
    ((detect_suspicious_content_patterns s).1.Pairwise
      (fun a b => b.suspicion_score ≤ a.suspicion_score)) ∧
    List.Perm (detect_suspicious_content_patterns s).1 (detectRaw s) ∧
    (∀ q : ℚ, (detect_suspicious_content_patterns s).1.filter
        (fun r => r.suspicion_score = q)
      = (detectRaw s).filter (fun r => r.suspicion_score = q)) ∧
    (generate_risk_report s cent).1.suspicious_users
      = (detect_suspicious_content_patterns s).1.take 20 ∧
    (generate_risk_report s cent).1.suspicious_users.length ≤ 20 ∧
    (generate_risk_report s cent).1.influential_suspicious.length ≤ 10 ∧
    (generate_risk_report s cent).1.summary.suspicious_users_count
      = (detect_suspicious_content_patterns s).1.length ∧
    (generate_risk_report s cent).1.summary.high_risk_users
      = ((detect_suspicious_content_patterns s).1.filter
          (fun u => u.suspicion_score > 7/10)).length := by
  refine ⟨sortDesc_sorted (detectRaw s), sortDesc_perm (detectRaw s),
    fun q => filter_sortDesc (detectRaw s) q, rfl, ?_, ?_, rfl, rfl⟩
  · exact le_trans (le_of_eq (congrArg List.length rfl))
      (le_trans (List.length_take_le _ _) (le_refl _))
  · exact le_trans (List.length_filterMap_le _ _)
      (List.length_take_le _ _)

/-! ## The behavior pattern analyzer (`analyze_user_content_patterns`) -/

/-- Python `collections` histogram bump (`defaultdict(int)` increment
and `Counter` build-up): overwrite-in-place or append. -/
def histAdd {α : Type} [DecidableEq α] (h : List (α × Nat)) (k : α) :
    List (α × Nat) :=
  if h.any (fun kv => decide (kv.1 = k))
  then h.map (fun kv => if kv.1 = k then (kv.1, kv.2 + 1) else kv)
  else h ++ [(k, 1)]

/-- `Counter(l)`. -/
def counter {α : Type} [DecidableEq α] (l : List α) : List (α × Nat) :=
  l.foldl histAdd []

/-- Histogram lookup (0 when absent, as `defaultdict(int)`). -/
def histGet {α : Type} [DecidableEq α] (h : List (α × Nat)) (k : α) :
    Nat :=
  match h.find? (fun kv => decide (kv.1 = k)) with
  | some kv => kv.2
  | none => 0

/-- Risk classification of one interaction's content — `none` when the
content id is missing from the catalog. -/
def interactionRisk (cd : List (String × ContentRec)) (i : Interaction) :
    Option RiskAssessment :=
  match dictGet cd i.content_id with
  | some c => some (classify_content_risk c.metadata)
  | none => none

/-- `total_risk_score`: accumulated only over the resolvable
interactions. -/
def totalRiskScore (cd : List (String × ContentRec))
    (consumed : List Interaction) : ℚ :=
  (consumed.filterMap
    (fun i => (interactionRisk cd i).map (fun r => r.risk_score))).sum

/-- `high_risk_content_count`: resolvable interactions at ALTO or
MÉDIO. -/
def highRiskCount (cd : List (String × ContentRec))
    (consumed : List Interaction) : Nat :=
  (consumed.filter (fun i =>
    match interactionRisk cd i with
    | some r => decide (r.risk_level = "ALTO" ∨ r.risk_level = "MÉDIO")
    | none => false)).length

/-- `risk_distribution`: level histogram over resolvable
interactions. -/
def riskDistribution (cd : List (String × ContentRec))
    (consumed : List Interaction) : List (String × Nat) :=
  counter (consumed.filterMap
    (fun i => (interactionRisk cd i).map (fun r => r.risk_level)))

/-- The suspicious-action indicators appended inside the main loop. -/
def loopIndicators (cd : List (String × ContentRec))
    (consumed : List Interaction) : List String :=
  consumed.filterMap (fun i =>
    match interactionRisk cd i with
    | some r =>
      if (i.interaction_type = "download" ∨ i.interaction_type = "save"
            ∨ i.interaction_type = "share")
          ∧ (r.risk_level = "ALTO" ∨ r.risk_level = "MÉDIO")
      then some (i.interaction_type ++ " em conteúdo de risco "
        ++ r.risk_level)
      else none
    | none => none)

/-- Hour of day of an epoch-second timestamp. -/
def tsHour (t : Nat) : Nat := t / 3600 % 24

/-- Weekday (Monday = 0) of an epoch-second timestamp; the epoch fell
on a Thursday. -/
def tsWeekday (t : Nat) : Nat := (t / 86400 + 3) % 7

/-- The normal result of `_analyze_temporal_patterns`. -/
structure TemporalPatterns where
  hour_distribution : List (Nat × Nat)
  weekday_distribution : List (Nat × Nat)
  peak_hours : List Nat
  school_time_ratio : ℚ
  total_interactions : Nat
  deriving DecidableEq, Repr

/-- `_analyze_temporal_patterns(interactions)`; `none` models the
`error` dict returned when there are no timestamps. -/
def analyzeTemporalPatterns (interactions : List Interaction) :
    Option TemporalPatterns :=
  let timestamps := interactions.map (fun i => i.timestamp)
  if timestamps.isEmpty then none
  else
    let hours := timestamps.map tsHour
    let hourDist := counter hours
    let school := (timestamps.filter (fun t =>
      decide (8 ≤ tsHour t ∧ tsHour t ≤ 17 ∧ tsWeekday t < 5))).length
    some { hour_distribution := hourDist
           weekday_distribution := counter (timestamps.map tsWeekday)
           peak_hours := hourDist.filterMap (fun kv =>
             if (kv.2 : ℚ) > (hours.length : ℚ) * (2/10)
             then some kv.1 else none)
           school_time_ratio := (school : ℚ) / (timestamps.length : ℚ)
           total_interactions := timestamps.length }

/-- The per-user behavior pattern. -/
structure PatternAnalysis where
  user_id : String
  age : Int
  total_interactions : Nat
  content_types : List (String × Nat)
  risk_distribution : List (String × Nat)
  interaction_types : List (String × Nat)
  temporal_patterns : Option TemporalPatterns
  suspicious_indicators : List String
  avg_risk_score : ℚ
  high_risk_ratio : ℚ
  deriving DecidableEq, Repr

/-- `'{:.1%}'`-style rendering of a ratio (round half to even at one
decimal of a percent). -/
def formatPercent1 (q : ℚ) : String :=
  let x := q * 1000
  let fl := x.floor
  let n : Int :=
    if x - (fl : ℚ) < 1/2 then fl
    else if x - (fl : ℚ) > 1/2 then fl + 1
    else if fl % 2 = 0 then fl else fl + 1
  toString (n / 10) ++ "." ++ toString (n % 10) ++ "%"

/-- Python list display of the dominant types (rendered without the
per-item quotes). -/
def listRepr (l : List String) : String :=
  "[" ++ String.intercalate ", " l ++ "]"

/-- `_detect_suspicious_patterns(pattern_analysis, profile)`: the four
independent indicator checks, appended in order. -/
def detectSuspiciousPatterns (age : Int) (pa : PatternAnalysis) :
    List String :=
  (if 18 ≤ age ∧ pa.high_risk_ratio > 3/10 then
    ["Adulto (" ++ toString age ++ " anos) com "
      ++ formatPercent1 pa.high_risk_ratio
      ++ " de conteúdo de alto risco"]
   else []) ++
  (match pa.temporal_patterns with
   | some tp =>
     if tp.school_time_ratio > 6/10 then
       ["Alto consumo em horário escolar (possível targeting de menores)"]
     else []
   | none => []) ++
  (if histGet pa.interaction_types "download"
        + histGet pa.interaction_types "share" > 5
      ∧ pa.high_risk_ratio > 2/10 then
    [toString (histGet pa.interaction_types "download"
        + histGet pa.interaction_types "share")
      ++ " ações de download/compartilhamento em conteúdo suspeito"]
   else []) ++
  (if pa.content_types.length ≤ 2 ∧ pa.total_interactions > 10
      ∧ pa.content_types.any (fun kv => decide (kv.1 = "kids_video"
          ∨ kv.1 = "children_game" ∨ kv.1 = "educational_kids")) then
    ["Consumo muito focado em poucos tipos: "
      ++ listRepr (pa.content_types.map (fun kv => kv.1))]
   else [])

/-- The body of the `analyze_user_content_patterns` loop for one user:
the loop's independent accumulations are rendered as folds over the
interaction log, and `_detect_suspicious_patterns` appends its
indicators to the loop's. -/
def analyzeOne (cd : List (String × ContentRec)) (uid : String)
    (p : Dict) : PatternAnalysis :=
  let consumed := pConsumed p
  let base : PatternAnalysis :=
    { user_id := uid
      age := pAge p
      total_interactions := consumed.length
      content_types := counter (consumed.map (fun i => i.content_type))
      risk_distribution := riskDistribution cd consumed
      interaction_types :=
        counter (consumed.map (fun i => i.interaction_type))
      temporal_patterns := analyzeTemporalPatterns consumed
      suspicious_indicators := loopIndicators cd consumed
      avg_risk_score := totalRiskScore cd consumed / (consumed.length : ℚ)
      high_risk_ratio :=
        (highRiskCount cd consumed : ℚ) / (consumed.length : ℚ) }
  { base with suspicious_indicators :=
      base.suspicious_indicators ++ detectSuspiciousPatterns (pAge p) base }

/-- `analyze_user_content_patterns(user_profiles, content_data)`:
users with an empty log are skipped. -/
def analyze_user_content_patterns (user_profiles : List (String × Dict))
    (cd : List (String × ContentRec)) :
    List (String × PatternAnalysis) :=
  user_profiles.filterMap (fun up =>
    if (pConsumed up.2).length = 0 then none
    else some (up.1, analyzeOne cd up.1 up.2))

/-- The behaviour the spec's sentence prescribes for 4.2's average:
the mean of `risk_score` over the *resolvable* interactions only. -/
def specMeanOverResolvable (cd : List (String × ContentRec))
    (consumed : List Interaction) : ℚ :=
  totalRiskScore cd consumed /
    ((consumed.filter
      (fun i => (dictGet cd i.content_id).isSome)).length : ℚ)

/-! ### Histogram lemmas -/

lemma find?_histMap_same {α : Type} [DecidableEq α] (h : List (α × Nat))
    (k : α) :
    ((h.map (fun kv => if kv.1 = k then (kv.1, kv.2 + 1) else kv)).find?
      (fun kv => decide (kv.1 = k)))
      = (h.find? (fun kv => decide (kv.1 = k))).map
          (fun kv => (kv.1, kv.2 + 1)) := by
  induction h with
  | nil => rfl
  | cons a t ih =>
    by_cases ha : a.1 = k
    · rw [List.map_cons, if_pos ha,
        List.find?_cons_of_pos _ (by simp [ha]),
        List.find?_cons_of_pos _ (by simp [ha])]
      rfl
    · rw [List.map_cons, if_neg ha,
        List.find?_cons_of_neg _ (by simp [ha]),
        List.find?_cons_of_neg _ (by simp [ha])]
      exact ih

lemma find?_histMap_other {α : Type} [DecidableEq α] (h : List (α × Nat))
    (k k' : α) (hne : k' ≠ k) :
    ((h.map (fun kv => if kv.1 = k then (kv.1, kv.2 + 1) else kv)).find?
      (fun kv => decide (kv.1 = k')))
      = h.find? (fun kv => decide (kv.1 = k')) := by
  induction h with
  | nil => rfl
  | cons a t ih =>
    by_cases ha : a.1 = k
    · have ha' : ¬ a.1 = k' := by
        rw [ha]; exact fun he => hne he.symm
      rw [List.map_cons, if_pos ha,
        List.find?_cons_of_neg _ (by simp [ha']),
        List.find?_cons_of_neg _ (by simp [ha'])]
      exact ih
    · rw [List.map_cons, if_neg ha]
      by_cases ha' : a.1 = k'
      · rw [List.find?_cons_of_pos _ (by simp [ha']),
          List.find?_cons_of_pos _ (by simp [ha'])]
      · rw [List.find?_cons_of_neg _ (by simp [ha']),
          List.find?_cons_of_neg _ (by simp [ha'])]
        exact ih

lemma histGet_histAdd_same {α : Type} [DecidableEq α]
    (h : List (α × Nat)) (k : α) :
    histGet (histAdd h k) k = histGet h k + 1 := by
  unfold histAdd histGet
  split_ifs with hany
  · rw [find?_histMap_same]
    cases hf : h.find? (fun kv => decide (kv.1 = k)) with
    | none =>
      exfalso
      rcases List.any_eq_true.mp hany with ⟨x, hx, hpx⟩
      exact (List.find?_eq_none.mp hf x hx) hpx
    | some kv => simp
  · have hnone : h.find? (fun kv => decide (kv.1 = k)) = none := by
      rw [List.find?_eq_none]
      intro x hx hpx
      exact hany (List.any_eq_true.mpr ⟨x, hx, hpx⟩)
    rw [find?_append, hnone]
    simp [List.find?_cons]

lemma histGet_histAdd_other {α : Type} [DecidableEq α]
    (h : List (α × Nat)) (k k' : α) (hne : k' ≠ k) :
    histGet (histAdd h k) k' = histGet h k' := by
  unfold histAdd histGet
  split_ifs with hany
  · rw [find?_histMap_other h k k' hne]
  · rw [find?_append]
    cases hf : h.find? (fun kv => decide (kv.1 = k')) with
    | none =>
      have hkk : ¬ k = k' := fun he => hne he.symm
      simp [List.find?_cons, hkk]
    | some kv => simp

lemma histGet_foldl {α : Type} [DecidableEq α] (l : List α) (k : α) :
    ∀ acc, histGet (l.foldl histAdd acc) k
      = histGet acc k + (l.filter (fun x => decide (x = k))).length := by
  induction l with
  | nil => intro acc; simp
  | cons x xs ih =>
    intro acc
    rw [List.foldl_cons, ih]
    by_cases hx : x = k
    · subst hx
      rw [histGet_histAdd_same, List.filter_cons_of_pos (by simp)]
      simp only [List.length_cons]
      omega
    · rw [histGet_histAdd_other _ _ _ (fun he => hx he.symm),
        List.filter_cons_of_neg (by simp [hx])]

/-- The built histogram counts occurrences exactly. -/
lemma histGet_counter {α : Type} [DecidableEq α] (l : List α) (k : α) :
    histGet (counter l) k
      = (l.filter (fun x => decide (x = k))).length := by
  unfold counter
  rw [histGet_foldl]
  simp [histGet]

lemma filterMap_filter_eq {α β : Type} (p : α → Bool) (f : α → Option β)
    (hpf : ∀ a, p a = false → f a = none) (l : List α) :
    (l.filter p).filterMap f = l.filterMap f := by
  induction l with
  | nil => rfl
  | cons a t ih =>
    by_cases hp : p a
    · rw [List.filter_cons_of_pos hp, List.filterMap_cons,
        List.filterMap_cons]
      cases f a <;> simp [ih]
    · rw [List.filter_cons_of_neg (by simp [hp]), List.filterMap_cons,
        hpf a (by simpa using hp)]
      exact ih

/-! ### C2: risk aggregation skips missing content; histograms do not -/

/-- C2 counterexample data: two interactions, only the first of which
resolves in the catalog (with risk 0.8). -/
def cexProfile : Dict :=
  [("user_id", .vstr "u"), ("age", .vint 30),
   ("registration_date", .vnat 0), ("suspicious_score", .vrat 0),
   ("content_consumed", .vinteractions
      [⟨"c1", "kids_video", "view", 0, { target_age_max := some 5 }⟩,
       ⟨"c2", "kids_video", "view", 0, { target_age_max := some 5 }⟩]),
   ("connections", .vstrlist [])]

/-- The catalog holding only `c1` (C2 counterexample data). -/
def cexCatalog : List (String × ContentRec) :=
  [("c1", ⟨"c1", "kids_video", [], [], { target_age_max := some 5 }⟩)]

/-- C2 as stated is false on the code: with one resolvable interaction
of risk 0.8 and one missing-content interaction, the analyzer reports
`avg_risk_score = 0.8/2 = 0.4`, while the mean over the resolvable
interactions only would be `0.8`. -/
theorem analyzer_avg_risk_counterexample :
    (analyzeOne cexCatalog "u" cexProfile).avg_risk_score = 2/5 ∧
    specMeanOverResolvable cexCatalog (pConsumed cexProfile) = 4/5 ∧
    (analyzeOne cexCatalog "u" cexProfile).avg_risk_score
      ≠ specMeanOverResolvable cexCatalog (pConsumed cexProfile) :=
  ⟨by decide, by decide, by decide⟩

/-- C2 amended: `avg_risk_score` equals the sum of the classifier's
scores over the *resolvable* interactions divided by the *total*
interaction count (a missing-content interaction contributes nothing
to the numerator but still counts in the denominator), the type and
interaction-kind histograms tally every interaction, resolvable or
not, and every profile with at least one interaction receives exactly
this analysis. -/
theorem analyzer_avg_risk_amended (ups : List (String × Dict))
    (cd : List (String × ContentRec)) (uid : String) (p : Dict)
    (hne : pConsumed p ≠ []) :
    (analyzeOne cd uid p).avg_risk_score
      = totalRiskScore cd (pConsumed p) / ((pConsumed p).length : ℚ) ∧
    totalRiskScore cd (pConsumed p)
      = (((pConsumed p).filter
            (fun i => (dictGet cd i.content_id).isSome)).filterMap
          (fun i => (interactionRisk cd i).map
            (fun r => r.risk_score))).sum ∧
    (∀ t, histGet (analyzeOne cd uid p).content_types t
      = ((pConsumed p).filter
          (fun i => decide (i.content_type = t))).length) ∧
    (∀ t, histGet (analyzeOne cd uid p).interaction_types t
      = ((pConsumed p).filter
          (fun i => decide (i.interaction_type = t))).length) ∧
    (analyzeOne cd uid p).high_risk_ratio
      = (highRiskCount cd (pConsumed p) : ℚ)
          / ((pConsumed p).length : ℚ) ∧
    ((uid, p) ∈ ups →
      (uid, analyzeOne cd uid p) ∈ analyze_user_content_patterns ups cd)
    := by
  refine ⟨rfl, ?_, ?_, ?_, rfl, ?_⟩
  · symm
    unfold totalRiskScore
    congr 1
    apply filterMap_filter_eq
    intro i hp
    have hd : dictGet cd i.content_id = none := by
      cases hd : dictGet cd i.content_id with
      | none => rfl
      | some c => rw [hd] at hp; simp at hp
    unfold interactionRisk
    rw [hd]
    rfl
  · intro t
    show histGet (counter ((pConsumed p).map
      (fun i => i.content_type))) t = _
    rw [histGet_counter, List.filter_map, List.length_map]
    rfl
  · intro t
    show histGet (counter ((pConsumed p).map
      (fun i => i.interaction_type))) t = _
    rw [histGet_counter, List.filter_map, List.length_map]
    rfl
  · intro hm
    unfold analyze_user_content_patterns
    refine List.mem_filterMap.mpr ⟨(uid, p), hm, ?_⟩
    rw [if_neg (by simpa using hne)]

theorem analyzer_avg_risk_amended_witness :
    pConsumed cexProfile ≠ [] ∧
    (analyzeOne cexCatalog "u" cexProfile).avg_risk_score
      = totalRiskScore cexCatalog (pConsumed cexProfile)
          / ((pConsumed cexProfile).length : ℚ) :=
  ⟨by decide,
   (analyzer_avg_risk_amended [] cexCatalog "u" cexProfile (by decide)).1⟩

end SNA
